import Mathlib

/-!
Verification development for the phishing feature extractor repository
(`extract_general_features.py`, `extract_contentinfo_features.py`,
`orchestrator.py`).

The Python code is shallowly embedded: JSON/Python values become the
inductive type `JVal`, Python operations that can raise become
`Except String`-valued functions (the error string names the Python
exception; theorems only ever use *whether* an exception occurs, never
which), and each extractor is split into a fallible value-gathering pass
(`generalVals` / `contentVals`, following the source's evaluation order)
followed by a pure feature-list builder (`generalFeatures` /
`contentFeatures`) whose keys are exactly the keys assigned in the source,
in source order.

Modelling notes (all marked again at the definition they concern):
* Python `int`s are `Int`, Python `float` results (the two ratio features
  and `avg_file_size_class`) are exact rationals `ℚ`; `round(x, 3)` is
  modelled as exact rational rounding to a multiple of 1/1000
  (`roundTo3`).  Python rounds the IEEE-754 double half-to-even; the two
  differ only on exact representation/tie corner cases which no claim
  below depends on.
* String operations are ASCII-faithful (`Char.toLower`, `Char.isDigit`,
  `Char.isAlphanum` are ASCII in Lean, matching the regex character
  classes `[a-zA-Z0-9]`, `\d`, `[0-9a-z]` of the source on ASCII input).
* `urllib.parse.urlparse` is modelled after CPython 3.11's `urlsplit` +
  `_splitparams` (scheme split requiring a leading letter, `//`-netloc
  split stopping at `/?#` with the unbalanced-bracket `ValueError`,
  the `_checknetloc` NFKC `ValueError` on non-ASCII netlocs — see
  `checkNetloc` — fragment split, query split, `;`-params split in the
  last path segment).  The tab/newline/control-character stripping and
  the validation of bracket-enclosed IPv6 hosts are not modelled; no
  theorem below quantifies over URLs containing brackets or control
  characters.
-/

namespace Phish

/-- A Python/JSON value as produced by `json.loads`: `None`, booleans,
integers, strings, lists and string-keyed dicts.  A `dict` is an
association list whose keys are distinct (Python dict); lookups take the
first binding. -/
inductive JVal where
  | null
  | bool (b : Bool)
  | int (n : Int)
  | str (s : String)
  | list (xs : List JVal)
  | dict (kvs : List (String × JVal))

/-- Python truthiness (`bool(x)`). -/
def truthy : JVal → Bool
  | .null => false
  | .bool b => b
  | .int n => n != 0
  | .str s => !s.isEmpty
  | .list xs => !xs.isEmpty
  | .dict kvs => !kvs.isEmpty

/-- Python `a or b`: `a` if truthy, else `b`. -/
def pyOr (a b : JVal) : JVal := if truthy a then a else b

/-- Python `d.get(k, default)` on a dict.  Returns the stored value (even
when it is `None`) and the default only when the key is absent. -/
def jGet (kvs : List (String × JVal)) (k : String) (d : JVal) : JVal :=
  match kvs.find? (fun p => p.1 == k) with
  | some p => p.2
  | none => d

/-- Python assignment `d[k] = v` on a dict: overwrite in place if present, else append
(Python dicts preserve insertion order). -/
def jSet (kvs : List (String × α)) (k : String) (v : α) : List (String × α) :=
  if kvs.any (fun p => p.1 == k) then
    kvs.map (fun p => if p.1 == k then (k, v) else p)
  else kvs ++ [(k, v)]

/-- Lookup in an association list (used for rows and feature maps). -/
def getKey (kvs : List (String × α)) (k : String) : Option α :=
  (kvs.find? (fun p => p.1 == k)).map (fun p => p.2)

/-- Requiring a dict (a `.get` access on anything else raises
`AttributeError`). -/
def asDict : JVal → Except String (List (String × JVal))
  | .dict kvs => .ok kvs
  | _ => .error "AttributeError: object has no attribute get"

/-- Requiring a str, with the raising call site in the message. -/
def asStr (v : JVal) (msg : String) : Except String String :=
  match v with
  | .str s => .ok s
  | _ => .error msg

/-- Python `len(x)`: defined for str, list and dict, `TypeError`
otherwise. -/
def pyLen : JVal → Except String Int
  | .str s => .ok s.length
  | .list xs => .ok xs.length
  | .dict kvs => .ok kvs.length
  | _ => .error "TypeError: object has no len"

/-- Value of a nonempty all-digit character list. -/
def digitsVal (l : List Char) : Option Int :=
  if l.isEmpty then none
  else if l.all Char.isDigit then
    some (l.foldl (fun a c => a * 10 + ((c.toNat : Int) - 48)) 0)
  else none

/-- Python `int(s)` on a string: strip whitespace, optional sign, decimal
digits.  (Underscore digit separators are not modelled; no input below
uses them.) -/
def parseIntChars (l : List Char) : Option Int :=
  let t := ((l.dropWhile Char.isWhitespace).reverse.dropWhile Char.isWhitespace).reverse
  match t with
  | '+' :: rest => digitsVal rest
  | '-' :: rest => (digitsVal rest).map (fun n => -n)
  | _ => digitsVal t

/-- Python `int(x)`: ints pass through, bools become 0/1, strings are
parsed (`ValueError` on failure), everything else raises `TypeError`. -/
def pyInt : JVal → Except String Int
  | .int n => .ok n
  | .bool b => .ok (if b then 1 else 0)
  | .str s =>
    match parseIntChars s.toList with
    | some n => .ok n
    | none => .error "ValueError: invalid literal for int"
  | _ => .error "TypeError: int() argument"

mutual
/-- Python `repr(x)` for the values of `JVal`: used (via `pyStr`) only for
`str(data.get("dns_status", ""))`.  String quoting is simplified to plain
single quotes with no escaping; the difference to CPython matters only
for strings containing quotes or backslashes, which no theorem below
depends on. -/
def pyRepr : JVal → String
  | .null => "None"
  | .bool true => "True"
  | .bool false => "False"
  | .int n => toString n
  | .str s => "'" ++ s ++ "'"
  | .list xs => "[" ++ pyReprList xs ++ "]"
  | .dict kvs => "\x7b" ++ pyReprDict kvs ++ "\x7d"

/-- Comma-joined reprs of list elements. -/
def pyReprList : List JVal → String
  | [] => ""
  | [x] => pyRepr x
  | x :: y :: rest => pyRepr x ++ ", " ++ pyReprList (y :: rest)

/-- Comma-joined reprs of dict items. -/
def pyReprDict : List (String × JVal) → String
  | [] => ""
  | [(k, v)] => "'" ++ k ++ "': " ++ pyRepr v
  | (k, v) :: kv :: rest => "'" ++ k ++ "': " ++ pyRepr v ++ ", " ++ pyReprDict (kv :: rest)
end

/-- Python `str(x)`: the string itself for strings, `repr` otherwise
(matching `str()` on None/bool/int/list/dict). -/
def pyStr : JVal → String
  | .str s => s
  | v => pyRepr v

/-- Python `s.lower()` (ASCII), implemented characterwise. -/
def pyLower (s : String) : String := String.mk (s.toList.map Char.toLower)

/-- Python `s.startswith(pre)`. -/
def pyStartsWith (s pre : String) : Bool := pre.toList.isPrefixOf s.toList

/-- Does `needle` occur as a contiguous sublist starting at index `i`? -/
def subAt (needle hay : List Char) (i : Nat) : Bool :=
  needle.isPrefixOf (hay.drop i)

/-- Substring occurrence on character lists. -/
def strIn (needle hay : List Char) : Bool :=
  (List.range (hay.length + 1)).any (subAt needle hay)

/-- Python `needle in hay` for strings. -/
def pyIn (needle hay : String) : Bool := strIn needle.toList hay.toList

/-- Python `hay.count(needle)` for strings: non-overlapping occurrences
scanned from the left. -/
def pyCountSub (needle hay : List Char) : Nat :=
  if needle.isEmpty then hay.length + 1
  else
    ((List.range (hay.length + 1)).foldl
      (fun st i => if st.2 ≤ i && subAt needle hay i then (st.1 + 1, i + needle.length) else st)
      ((0 : Nat), (0 : Nat))).1

/-- Python equality as used by this code (`==` against scalars, set
membership of hashable scalars): numeric cross-type equality between
bool and int, structural equality on scalars.  Containers (which Python
compares structurally) only ever meet scalars here, so they compare
unequal. -/
def pyEqSimple : JVal → JVal → Bool
  | .null, .null => true
  | .bool a, .bool b => a == b
  | .bool a, .int n => (if a then (1 : Int) else 0) == n
  | .int n, .bool a => n == (if a then (1 : Int) else 0)
  | .int a, .int b => a == b
  | .str a, .str b => a == b
  | _, _ => false

/-- Python `needle in container` for `"md5" in r`: dict → key membership,
str → substring, list → element equality; `TypeError` otherwise. -/
def pyContains (needle : JVal) (container : JVal) : Except String Bool :=
  match container with
  | .dict kvs =>
    match needle with
    | .str s => .ok (kvs.any (fun p => p.1 == s))
    | _ => .ok false
  | .str hay =>
    match needle with
    | .str n => .ok (pyIn n hay)
    | _ => .error "TypeError: in requires string as left operand"
  | .list xs => .ok (xs.any (fun x => pyEqSimple needle x))
  | _ => .error "TypeError: argument is not iterable"

/-- Python iteration (`for x in v`): lists yield elements, strings yield
1-character strings, dicts yield their keys; `TypeError` otherwise. -/
def pyIterE : JVal → Except String (List JVal)
  | .list xs => .ok xs
  | .str s => .ok (s.toList.map (fun c => .str (String.mk [c])))
  | .dict kvs => .ok (kvs.map (fun p => .str p.1))
  | _ => .error "TypeError: object is not iterable"

/-! ### urlparse model (CPython `urllib.parse.urlsplit` + `_splitparams`) -/

/-- Characters allowed in a URL scheme after the leading letter. -/
def schemeChar (c : Char) : Bool := c.isAlphanum || c == '+' || c == '-' || c == '.'

/-- The result of `urlparse`. -/
structure UrlParts where
  scheme : String
  netloc : String
  path : String
  params : String
  query : String
  fragment : String
deriving Repr, DecidableEq

/-- Scheme split: at the first `:`, when the part before it is nonempty,
starts with an (ASCII) letter and consists of scheme characters, the
scheme is that part lowercased. -/
def splitScheme (l : List Char) : List Char × List Char :=
  match l.findIdx? (· == ':') with
  | some i =>
    if 0 < i && (l.take 1).all Char.isAlpha && (l.take i).all schemeChar then
      ((l.take i).map Char.toLower, l.drop (i + 1))
    else ([], l)
  | none => ([], l)

/-- Characters ending the netloc. -/
def netDelim (c : Char) : Bool := c == '/' || c == '?' || c == '#'

/-- Netloc split: after a leading `//`, the netloc runs to the first of
`/?#`; an unbalanced square bracket in it raises `ValueError` (CPython's
IPv6 check). -/
def splitNetloc (l : List Char) : Except String (List Char × List Char) :=
  if l.take 2 = ['/', '/'] then
    let rest := l.drop 2
    let netloc := rest.takeWhile (fun c => !netDelim c)
    let remain := rest.dropWhile (fun c => !netDelim c)
    if (netloc.contains '[' && !netloc.contains ']') ||
        (netloc.contains ']' && !netloc.contains '[') then
      .error "ValueError: Invalid IPv6 URL"
    else .ok (netloc, remain)
  else .ok ([], l)

/-- CPython `_splitparams`: split the path at the first `;` of its last
`/`-segment. -/
def splitParams (l : List Char) : List Char × List Char :=
  if l.contains '/' then
    let j := l.length - 1 - l.reverse.findIdx (· == '/')
    match (l.drop j).findIdx? (· == ';') with
    | some k => (l.take (j + k), l.drop (j + k + 1))
    | none => (l, [])
  else
    match l.findIdx? (· == ';') with
    | some k => (l.take k, l.drop (k + 1))
    | none => (l, [])

/-- Codepoints whose NFKC normalization contains one of the URL
delimiters `/?#@:` (CPython `_checknetloc`, bpo-36216 / CVE-2019-9636).
The list is the full enumeration over the Unicode database used by
CPython 3.11: the three double-punctuation marks, the four letterlike
symbols `℀ ℁ ℅ ℆`, `⩴`, and the vertical/small/fullwidth presentation
forms of `: ? # @ /`. -/
def nfkcDelimExpander (c : Char) : Bool :=
  c.toNat == 0x2047 || c.toNat == 0x2048 || c.toNat == 0x2049 ||
  c.toNat == 0x2100 || c.toNat == 0x2101 || c.toNat == 0x2105 ||
  c.toNat == 0x2106 || c.toNat == 0x2a74 || c.toNat == 0xfe13 ||
  c.toNat == 0xfe16 || c.toNat == 0xfe55 || c.toNat == 0xfe56 ||
  c.toNat == 0xfe5f || c.toNat == 0xfe6b || c.toNat == 0xff03 ||
  c.toNat == 0xff0f || c.toNat == 0xff1a || c.toNat == 0xff1f ||
  c.toNat == 0xff20

/-- CPython `_checknetloc(netloc)`: an empty or all-ASCII netloc passes;
otherwise `ValueError` iff the NFKC normalization of the netloc (with
literal `@:#?` removed) introduces one of `/?#@:`.  Since those five
delimiters are ASCII, NFKC composition cannot create them from context,
so they appear exactly when some character of the netloc has them in its
(recursive) compatibility decomposition — the `nfkcDelimExpander`
characters; the removal of literal `@:#?` cannot affect this.  This
characterwise reformulation was checked exhaustively per codepoint and
by fuzzing whole netlocs against CPython 3.11's `urlparse`. -/
def checkNetloc (netloc : List Char) : Except String Unit :=
  if netloc.isEmpty || netloc.all (fun c => c.toNat < 128) then .ok ()
  else if netloc.any nfkcDelimExpander then
    .error "ValueError: netloc contains invalid characters under NFKC normalization"
  else .ok ()

/-- The pure remainder of `urlsplit`/`urlparse` after the netloc split:
fragment split, then query split, then the `;`-params split. -/
def urlparseTail (sch : List Char) (nr : List Char × List Char) : UrlParts :=
  let netl := nr.1
  let l2 := nr.2
  let frag := if l2.contains '#' then (l2.dropWhile (· != '#')).drop 1 else []
  let l3 := if l2.contains '#' then l2.takeWhile (· != '#') else l2
  let qry := if l3.contains '?' then (l3.dropWhile (· != '?')).drop 1 else []
  let l4 := if l3.contains '?' then l3.takeWhile (· != '?') else l3
  let pp := if l4.contains ';' then splitParams l4 else (l4, [])
  ⟨String.mk sch, String.mk netl, String.mk pp.1, String.mk pp.2,
   String.mk qry, String.mk frag⟩

/-- Model of `urllib.parse.urlparse(s)`: scheme split, then netloc split
(with the bracket `ValueError`), then the `_checknetloc` NFKC check
(CPython runs it after the fragment/query splits, which are pure, so
only the error message order differs — never whether an error occurs),
then the pure tail. -/
def pyUrlparse (s : String) : Except String UrlParts :=
  match splitScheme s.toList with
  | (sch, l1) =>
    (splitNetloc l1).bind (fun nr =>
      (checkNetloc nr.1).map (fun _ => urlparseTail sch nr))

/-! ### Feature values and shared numeric helpers -/

/-- A feature value: a Python int or a Python float (the latter modelled
as an exact rational, see the header note). -/
inductive FVal where
  | int (n : Int)
  | rat (q : ℚ)
deriving DecidableEq, Repr

/-- A feature map: insertion-ordered, distinct string keys. -/
abbrev Features := List (String × FVal)

/-- Python `int(b)` of a boolean condition. -/
def bI (b : Bool) : FVal := .int (if b then 1 else 0)

/-- Python `int(p)` of a decidable proposition. -/
def pI (p : Prop) [Decidable p] : FVal := .int (if p then 1 else 0)

/-- Python `round(q, 3)` as exact rational rounding (see the header note on
float semantics). -/
def roundTo3 (q : ℚ) : ℚ := ((round (q * 1000) : ℤ) : ℚ) / 1000

/-- Does `l` contain `k` consecutive characters satisfying `p`
(the regex `p{k,}` as a search)? -/
def hasRun (p : Char → Bool) (k : Nat) (l : List Char) : Bool :=
  (List.range (l.length + 1)).any
    (fun i => ((l.drop i).take k).length == k && ((l.drop i).take k).all p)

/-- The regex class `[0-9a-z]` of `contains_random_subdomain`. -/
def lowerAlnum (c : Char) : Bool := c.isDigit || ('a' ≤ c && c ≤ 'z')

/-- Consume exactly `k` leading digits, returning the rest. -/
def takeDigits : Nat → List Char → Option (List Char)
  | 0, l => some l
  | k + 1, c :: rest => if c.isDigit then takeDigits k rest else none
  | _ + 1, [] => none

/-- Strip a literal, returning the rest on success. -/
def stripLit (lit : String) (l : List Char) : Option (List Char) :=
  if lit.toList.isPrefixOf l then some (l.drop lit.length) else none

/-- Match `(\.\d{1,3}){n}` with full backtracking over the 1–3 digit
choices. -/
def dotGroups : Nat → List Char → Bool
  | 0, _ => true
  | n + 1, l =>
    match l with
    | '.' :: rest =>
      [1, 2, 3].any (fun k =>
        match takeDigits k rest with
        | some r => dotGroups n r
        | none => false)
    | _ => false

/-- Match `\d{1,3}(\.\d{1,3}){3}` at the head of `l`. -/
def ipFrom (l : List Char) : Bool :=
  [1, 2, 3].any (fun k =>
    match takeDigits k l with
    | some r => dotGroups 3 r
    | none => false)

/-- Match `https?://\d{1,3}(\.\d{1,3}){3}` at the head of `l`. -/
def ipAt (l : List Char) : Bool :=
  match stripLit "http" l with
  | none => false
  | some r =>
    (match stripLit "s://" r with
     | some r2 => ipFrom r2
     | none => false) ||
    (match stripLit "://" r with
     | some r2 => ipFrom r2
     | none => false)

/-- The regex search `re.search(r"https?://\d{1,3}(\.\d{1,3}){3}", s)` as a boolean. -/
def hasIpPattern (s : String) : Bool :=
  (List.range (s.length + 1)).any (fun i => ipAt (s.toList.drop i))

/-- The regex search `re.search(r"\.([a-zA-Z0-9]{1,6})$", path)`: the matched group, if
any.  A match must be a suffix whose group has no further `.` (the class
excludes `.`), so it is exactly the part after the last `.` when that
part is 1–6 alphanumeric characters. -/
def fileExtGroup (l : List Char) : Option (List Char) :=
  if l.contains '.' then
    let g := (l.reverse.takeWhile (· != '.')).reverse
    if 1 ≤ g.length && g.length ≤ 6 && g.all Char.isAlphanum then some g else none
  else none

/-! ### `extract_general_features` (src/extract_general_features.py) -/

/-- The values `extract_general_features` reads from its input before
building the feature dict.  Gathering them is the fallible part of the
function; every feature is a pure function of these. -/
structure GVals where
  url : String
  scheme : String
  netloc : String
  path : String
  query : String
  hasSubI : Int
  subdomain : String
  dnsLower : String
  contentStatus : Int
  techLen : Int
  techTruthy : Bool
deriving Repr, DecidableEq

/-- The fallible reads of `extract_general_features`, in source order:
`url = data.get("url", "") or ""` (line 37), `urlparse(url)` (line 38,
raising on a non-str url), the subdomain selection (line 61), `int(
data.get("has_subdomain", False))` (line 62), `len(subdomain)` (line 63,
raising on a non-str subdomain — a truthy non-str subdomain always
raises by line 65 where `re.search` requires a str, so the model checks
once here), `int(data.get("content_status", 0))` (line 87) and
`len(tech_info)` (line 113). -/
def generalVals (data : JVal) : Except String GVals := do
  let kvs ← asDict data
  let urlV := pyOr (jGet kvs "url" (.str "")) (.str "")
  let url ← asStr urlV "TypeError: urlparse expects a str"
  let p ← pyUrlparse url
  let subV := pyOr (pyOr (jGet kvs "subdomain" (.str "")) (.str p.netloc)) (.str "")
  let hasSubI ← pyInt (jGet kvs "has_subdomain" (.bool false))
  let subdomain ← asStr subV "TypeError: len of non-str subdomain"
  let dnsLower := pyLower (pyStr (jGet kvs "dns_status" (.str "")))
  let cs ← pyInt (jGet kvs "content_status" (.int 0))
  let tech := jGet kvs "tech_info" (.list [])
  let techLen ← pyLen tech
  pure ⟨url, p.scheme, p.netloc, p.path, p.query, hasSubI, subdomain, dnsLower,
        cs, techLen, truthy tech⟩

/-- The suspicious keyword list of line 76. -/
def suspiciousTerms : List String :=
  ["login", "update", "verify", "secure", "bank", "account", "signin",
   "password", "confirm"]

/-- The feature dict of `extract_general_features`, keys in assignment
order (lines 40–114). -/
def generalFeatures (v : GVals) : Features :=
  let url := v.url
  let path := v.path
  let query := v.query
  let fext := fileExtGroup path.toList
  let nDigits : Int := (url.toList.countP Char.isDigit : Nat)
  let nSpecial : Int := (url.toList.countP (fun c => !c.isAlphanum) : Nat)
  let randomSub := hasRun lowerAlnum 15 v.subdomain.toList
  let dnsErr := pyIn "error" v.dnsLower || pyIn "fail" v.dnsLower
  let cs := v.contentStatus
  [("url_length", .int url.length),
   ("scheme_http", bI (v.scheme == "http")),
   ("scheme_https", bI (v.scheme == "https")),
   ("path_length", .int path.length),
   ("query_length", .int query.length),
   ("num_path_segments", .int (if path.isEmpty then 0 else (path.toList.count '/' : Nat))),
   ("num_query_params", .int (if query.isEmpty then 0 else ((query.toList.count '&' : Nat) + 1))),
   ("has_query", bI !query.isEmpty),
   ("has_file_extension", bI fext.isSome),
   ("file_extension_len", .int (match fext with | some g => (g.length : Int) | none => 0)),
   ("has_subdomain", .int v.hasSubI),
   ("subdomain_length", .int v.subdomain.length),
   ("num_subdomain_levels", .int (v.subdomain.toList.count '.' : Nat)),
   ("contains_random_subdomain", bI randomSub),
   ("num_digits_in_url", .int nDigits),
   ("num_special_chars", .int nSpecial),
   ("contains_ip_in_url", bI (hasIpPattern url)),
   ("contains_encoded_chars",
     bI (pyIn "%" url || pyIn "+" url || pyIn "-" url || pyIn "_" url || pyIn "=" url)),
   ("contains_suspicious_keyword",
     bI (suspiciousTerms.any (fun t => pyIn t (pyLower url)))),
   ("digit_ratio", .rat (roundTo3 ((nDigits : ℚ) / ((url.length : ℚ) + 1)))),
   ("special_char_ratio", .rat (roundTo3 ((nSpecial : ℚ) / ((url.length : ℚ) + 1)))),
   ("dns_resolves", bI (pyIn "resolve" v.dnsLower)),
   ("dns_error", bI dnsErr),
   ("content_status", .int cs),
   ("is_http_ok", pI (200 ≤ cs ∧ cs < 300)),
   ("is_http_redirect", pI (300 ≤ cs ∧ cs < 400)),
   ("is_http_client_error", pI (400 ≤ cs ∧ cs < 500)),
   ("is_http_server_error", pI (500 ≤ cs ∧ cs < 600)),
   ("is_complex_url",
     bI (decide ((url.length : Int) > 80) || decide (nSpecial > 10) || randomSub)),
   ("is_suspicious_dns_or_status",
     bI (dnsErr || decide (400 ≤ cs ∧ cs < 500) || decide (500 ≤ cs ∧ cs < 600))),
   ("tech_info_count", .int v.techLen),
   ("has_tech_info", bI v.techTruthy)]

/-- The function `extract_general_features(data)`: gather the raw values (raising as
the source does), then build the pure feature dict. -/
def extract_general_features (data : JVal) : Except String Features :=
  (generalVals data).map generalFeatures

/-- The fixed key vocabulary of `extract_general_features`. -/
def generalVocab : List String :=
  ["url_length", "scheme_http", "scheme_https", "path_length", "query_length",
   "num_path_segments", "num_query_params", "has_query", "has_file_extension",
   "file_extension_len", "has_subdomain", "subdomain_length",
   "num_subdomain_levels", "contains_random_subdomain", "num_digits_in_url",
   "num_special_chars", "contains_ip_in_url", "contains_encoded_chars",
   "contains_suspicious_keyword", "digit_ratio", "special_char_ratio",
   "dns_resolves", "dns_error", "content_status", "is_http_ok",
   "is_http_redirect", "is_http_client_error", "is_http_server_error",
   "is_complex_url", "is_suspicious_dns_or_status", "tech_info_count",
   "has_tech_info"]

/-! ### `extract_contentinfo_features` (src/extract_contentinfo_features.py) -/

/-- The values `extract_contentinfo_features` reads from its input;
every feature is a pure function of these. -/
structure CVals where
  statusCode : Int
  hasError : Bool
  titleLen : Int
  hasHtml : Bool
  htmlLen : Int
  htmlLower : String
  dest : String
  harLen : Int
  respLen : Int
  servers : List String
  ctypes : List String
  md5Unique : Int
  ftLenSum : Int
  longLines : Int
  asciiCount : Int
deriving Repr, DecidableEq

/-- One header of the HAR loop (lines 72–78): `h.get("key", "").lower()`
and `h.get("value", "").lower()` raise on a non-dict `h` or non-str
key/value; a lowercased `server` value joins the first list, a
lowercased `content-type` value the second. -/
def headerStep (acc : List String × List String) (h : JVal) :
    Except String (List String × List String) := do
  let hd ← asDict h
  let key ← asStr (jGet hd "key" (.str "")) "AttributeError: lower"
  let value ← asStr (jGet hd "value" (.str "")) "AttributeError: lower"
  let k := pyLower key
  let v := pyLower value
  let acc1 := if k == "server" then (acc.1 ++ [v], acc.2) else acc
  let acc2 := if k == "content-type" then (acc1.1, acc1.2 ++ [v]) else acc1
  pure acc2

/-- One HAR entry (lines 70–71): `entry.get("response", {}).get(
"headers", [])`, then the header loop. -/
def entryStep (acc : List String × List String) (e : JVal) :
    Except String (List String × List String) := do
  let ed ← asDict e
  let rd ← asDict (jGet ed "response" (.dict []))
  let hs ← pyIterE (jGet rd "headers" (.list []))
  hs.foldlM headerStep acc

/-- One step of `[r.get("md5") for r in responses if "md5" in r]`
(line 95): the membership test runs first, then `r.get` (raising on a
non-dict `r`). -/
def md5Step (acc : List JVal) (r : JVal) : Except String (List JVal) := do
  let b ← pyContains (.str "md5") r
  if b then do
    let rd ← asDict r
    pure (acc ++ [jGet rd "md5" .null])
  else pure acc

/-- Values `set()` accepts (line 96): scalars; lists and dicts are
unhashable. -/
def hashable : JVal → Bool
  | .list _ => false
  | .dict _ => false
  | _ => true

/-- The size of `set(l)` under Python equality. -/
def distinctCount (l : List JVal) : Nat :=
  (l.foldl (fun acc v => if acc.any (pyEqSimple v) then acc else acc ++ [v]) []).length

/-- One response of lines 97–101: `len(r.get("file_type", ""))` summed,
and the two lowercased-substring counts.  The source computes `len` on
the raw value (line 98) and `.lower()` on the same value (lines
100–101); any non-str `file_type` raises by line 100, so the model
requires a str once. -/
def ftStep (acc : Int × Int × Int) (r : JVal) : Except String (Int × Int × Int) := do
  let rd ← asDict r
  let ft ← asStr (jGet rd "file_type" (.str "")) "AttributeError: lower"
  let lf := pyLower ft
  pure (acc.1 + ft.length,
        acc.2.1 + (if pyIn "long lines" lf then 1 else 0),
        acc.2.2 + (if pyIn "ascii" lf then 1 else 0))

/-- Line 35: `len(content_info.get("title", "")) if content_info.get(
"title") else 0`. -/
def titleLenE (kvs : List (String × JVal)) : Except String Int :=
  if truthy (jGet kvs "title" .null) then pyLen (jGet kvs "title" (.str "")) else pure 0

/-- Line 96: `set(md5_list)` raises on an unhashable element. -/
def hashableCheck (md5s : List JVal) : Except String Nat :=
  if md5s.all hashable then .ok 0 else .error "TypeError: unhashable type"

/-- The fallible reads of `extract_contentinfo_features`, in source
order: `int(content_info.get("status_code", 0))` (line 33, also raising
on a non-dict input), the `title` length (line 35), `len(...)` of the
html (line 37), `.lower()` of the html (line 40, requiring a str), the
destination (lines 52–55: every non-str destination raises — `len` at 52
for scalars, `.count` at 53 for dicts, `.startswith` at 54 for lists —
so the model requires a str once), `len` of har and responses (lines
64–65), the HAR header loop (lines 70–78), the md5 comprehension and
`set` (lines 95–96) and the response `file_type` passes (lines
97–101). -/
def contentVals (ci : JVal) : Except String CVals := do
  let kvs ← asDict ci
  let statusCode ← pyInt (jGet kvs "status_code" (.int 0))
  let hasError := match jGet kvs "error_msg" .null with
    | .null => false
    | _ => true
  let titleLen ← titleLenE kvs
  let hasHtml := truthy (jGet kvs "html" .null)
  let htmlLen ← pyLen (jGet kvs "html" (.str ""))
  let html ← asStr (jGet kvs "html" (.str "")) "AttributeError: lower"
  let dest ← asStr (jGet kvs "destination" (.str "")) "TypeError: non-str destination"
  let har := jGet kvs "har" (.list [])
  let responses := jGet kvs "responses" (.list [])
  let harLen ← pyLen har
  let respLen ← pyLen responses
  let entries ← pyIterE har
  let sc ← entries.foldlM entryStep ([], [])
  let rs ← pyIterE responses
  let md5s ← rs.foldlM md5Step []
  let _hok ← hashableCheck md5s
  let triple ← rs.foldlM ftStep (0, 0, 0)
  pure ⟨statusCode, hasError, titleLen, hasHtml, htmlLen, pyLower html, dest,
        harLen, respLen, sc.1, sc.2, (distinctCount md5s : Nat), triple.1,
        triple.2.1, triple.2.2⟩

/-- Python `" ".join(l)`. -/
def joinSp (l : List String) : String := String.intercalate " " l

/-- The feature dict of `extract_contentinfo_features`, keys in
assignment order (lines 33–111). -/
def contentFeatures (c : CVals) : Features :=
  let h := c.htmlLower
  let serverStr := joinSp c.servers
  let ctypeStr := joinSp c.ctypes
  let numJs : Int := (c.ctypes.countP (fun t => pyIn "javascript" t) : Nat)
  let loader := pyIn "please wait" h || pyIn "loading" h || pyIn "redirect" h
  [("status_code", .int c.statusCode),
   ("has_error", bI c.hasError),
   ("title_length", .int c.titleLen),
   ("has_html", bI c.hasHtml),
   ("html_length", .int c.htmlLen),
   ("contains_loader_text", bI loader),
   ("contains_script_tag", bI (pyIn "<script" h)),
   ("contains_iframe", bI (pyIn "<iframe" h)),
   ("contains_form", bI (pyIn "<form" h)),
   ("num_links", .int (pyCountSub "href=".toList h.toList : Nat)),
   ("num_scripts", .int (pyCountSub "<script".toList h.toList : Nat)),
   ("url_length", .int c.dest.length),
   ("num_subdomains", .int (c.dest.toList.count '.' : Nat)),
   ("uses_https", bI (pyStartsWith c.dest "https")),
   ("contains_ip_in_url", bI (hasIpPattern c.dest)),
   ("contains_encoded_chars",
     bI (pyIn "%" c.dest || pyIn "+" c.dest || pyIn "-" c.dest || pyIn "_" c.dest)),
   ("is_arweave_host", bI (pyIn ".ar-io.dev" c.dest || pyIn "arweave" c.dest)),
   ("num_requests", .int c.harLen),
   ("num_responses", .int c.respLen),
   ("has_cloudflare", bI (pyIn "cloudflare" serverStr)),
   ("has_aws_cloudfront", bI (pyIn "cloudfront" serverStr)),
   ("has_tencent_cos", bI (pyIn "tencent-cos" serverStr)),
   ("num_js_files", .int numJs),
   ("num_css_files", .int (c.ctypes.countP (fun t => pyIn "css" t) : Nat)),
   ("num_html_files", .int (c.ctypes.countP (fun t => pyIn "html" t) : Nat)),
   ("has_gzip_encoding", bI (pyIn "gzip" ctypeStr)),
   ("has_csp_header", bI (pyIn "content-security-policy" ctypeStr)),
   ("num_unique_md5", .int c.md5Unique),
   ("avg_file_size_class",
     .rat ((c.ftLenSum : ℚ) / (if c.respLen = 0 then (1 : ℚ) else (c.respLen : ℚ)))),
   ("num_long_lines_files", .int c.longLines),
   ("num_ascii_files", .int c.asciiCount),
   ("is_suspicious_loader_page",
     bI (loader && decide (numJs > 3) && decide ((c.dest.length : Int) > 100))),
   ("is_heavy_page", pI (c.htmlLen > 10000 ∧ c.harLen > 5))]

/-- The function `extract_contentinfo_features(content_info)`. -/
def extract_contentinfo_features (ci : JVal) : Except String Features :=
  (contentVals ci).map contentFeatures

/-- The fixed key vocabulary of `extract_contentinfo_features`. -/
def contentVocab : List String :=
  ["status_code", "has_error", "title_length", "has_html", "html_length",
   "contains_loader_text", "contains_script_tag", "contains_iframe",
   "contains_form", "num_links", "num_scripts", "url_length",
   "num_subdomains", "uses_https", "contains_ip_in_url",
   "contains_encoded_chars", "is_arweave_host", "num_requests",
   "num_responses", "has_cloudflare", "has_aws_cloudfront",
   "has_tencent_cos", "num_js_files", "num_css_files", "num_html_files",
   "has_gzip_encoding", "has_csp_header", "num_unique_md5",
   "avg_file_size_class", "num_long_lines_files", "num_ascii_files",
   "is_suspicious_loader_page", "is_heavy_page"]

/-! ### Orchestrator (src/orchestrator.py)

`extract_hostinfo_features` and `extract_additional_features` are
external collaborators (imported by the orchestrator but not part of
this repository); the aggregation is therefore parametrised over them as
arbitrary extractors of the same shape.  File-system walking, JSON
decoding and the pandas export are outside the embedding; a category's
input is the list of (filename, load result) pairs that
`load_json_file` produced. -/

/-- A dataset row cell: a feature value or a metadata string. -/
inductive Cell where
  | num (v : FVal)
  | txt (s : String)
deriving DecidableEq, Repr

/-- A dataset row. -/
abbrev Row := List (String × Cell)

/-- An extractor as the aggregator sees it. -/
abbrev Extractor := JVal → Except String Features

/-- The function `safe_call(func, arg, ...)` (lines 31–49): a `None` argument becomes
`{}`; if the call raises, `{}` is returned instead.  (The source's
`isinstance(result, dict)` guard is a no-op in the embedding, where
extractors return feature dicts by type.) -/
def safe_call (f : Extractor) (arg : JVal) : Features :=
  let arg' := match arg with
    | .null => JVal.dict []
    | a => a
  match f arg' with
  | .ok r => r
  | .error _ => []

/-- Feature values as row cells. -/
def toCells (f : Features) : List (String × Cell) :=
  f.map (fun p => (p.1, Cell.num p.2))

/-- Python `row.update(other)`: last writer wins per key, insertion order kept. -/
def rowUpdate (row : Row) (upd : List (String × Cell)) : Row :=
  upd.foldl (fun r kv => jSet r kv.1 kv.2) row

/-- Lines 96–116: build one row for a record — the four extractors
behind `safe_call`, merged in source order, then the label / filename /
category metadata. -/
def buildRow (hostF addF : Extractor) (kvs : List (String × JVal))
    (label : Int) (filename category : String) : Row :=
  let row := rowUpdate [] (toCells (safe_call extract_general_features (.dict kvs)))
  let host_info := pyOr (jGet kvs "host_info" .null) (.dict [])
  let content_info := pyOr (jGet kvs "content_info" .null) (.dict [])
  let additional := pyOr (jGet kvs "additional" .null) (.dict [])
  let row := rowUpdate row (toCells (safe_call hostF host_info))
  let row := rowUpdate row (toCells (safe_call extract_contentinfo_features content_info))
  let row := rowUpdate row (toCells (safe_call addF additional))
  let row := jSet row "label" (Cell.num (.int label))
  let row := jSet row "filename" (Cell.txt filename)
  jSet row "category" (Cell.txt category)

/-- Lines 86–116 for one file: `None` load results and falsy or non-dict
JSON values are skipped, every other record yields exactly one row. -/
def rowOfFile (hostF addF : Extractor) (label : Int) (category : String)
    (file : String × Option JVal) : Option Row :=
  match file.2 with
  | none => none
  | some d =>
    if truthy d then
      match d with
      | .dict kvs => some (buildRow hostF addF kvs label file.1 category)
      | _ => none
    else none

/-- One category folder. -/
def processCategory (hostF addF : Extractor) (files : List (String × Option JVal))
    (label : Int) (category : String) : List Row :=
  files.filterMap (rowOfFile hostF addF label category)

/-- The function `build_global_dataframe` (lines 70–123) up to the DataFrame
construction: the benign folder with label 1, then the malicious folder
with label 0. -/
def build_global_dataframe (hostF addF : Extractor)
    (benignFiles maliciousFiles : List (String × Option JVal)) : List Row :=
  processCategory hostF addF benignFiles 1 "benign" ++
    processCategory hostF addF maliciousFiles 0 "malicious"

/-- Is a load result a record that produces a row (lines 89–94)? -/
def validRecord (file : String × Option JVal) : Bool :=
  match file.2 with
  | none => false
  | some d =>
    if truthy d then
      match d with
      | .dict _ => true
      | _ => false
    else false

/-! ### Generic helper lemmas -/

/-- Did an `Except` computation return normally? -/
def exOk : Except String α → Bool
  | .ok _ => true
  | .error _ => false

/-! ### Claims -/

/-- The gathered values of `extract_general_features` on the empty dict. -/
def gv0 : GVals := ⟨"", "", "", "", "", 0, "", "", 0, 0, false⟩

/-- The gathered values of `extract_contentinfo_features` on the empty
dict. -/
def cv0 : CVals := ⟨0, false, 0, false, 0, "", "", 0, 0, [], [], 0, 0, 0, 0⟩

/-- The all-zero default vector over a key vocabulary: Python int 0
everywhere except the float keys, which hold 0.0. -/
def zeroRow (vocab ratKeys : List String) : Features :=
  vocab.map (fun k => (k, if ratKeys.contains k then FVal.rat 0 else FVal.int 0))

def c5In : JVal := .dict [("url", .str "http://example.com/a")]

def c5F : Features := (extract_general_features c5In).toOption.getD []

def c6In : JVal := .dict [("content_status", .int 404)]

def c6F : Features := (extract_general_features c6In).toOption.getD []

def c7In : JVal := .dict [("url", .str "http://a1.example.com/x?y=22")]

def c7F : Features := (extract_general_features c7In).toOption.getD []

def c10CIn : List (String × JVal) := [("destination", .str "a=b")]

def c10CF : Features := (extract_contentinfo_features (.dict c10CIn)).toOption.getD []

def c10GIn : List (String × JVal) := [("url", .str "x=1")]

def c10GF : Features := (extract_general_features (.dict c10GIn)).toOption.getD []

/-- The feature dicts the extractors emit on the empty dict (used to
exhibit the key overlap between the two vocabularies). -/
def gEmptyF : Features := (extract_general_features (.dict [])).toOption.getD []

def cEmptyF : Features := (extract_contentinfo_features (.dict [])).toOption.getD []

def c2In : JVal := .dict [("dns_status", .str "resolved")]

def c2F : Features := (extract_general_features c2In).toOption.getD []

def c4In : List (String × JVal) := [("url", .null), ("content_status", .int 7)]

def c4F : Features := (extract_general_features (.dict c4In)).toOption.getD []

/-! ### C8: HAR server-header aggregation -/

/-- A content_info consisting of one HAR entry with a single response
header. -/
def harOf (k v : String) : List (String × JVal) :=
  [("har", .list [ .dict [("response", .dict [("headers",
      .list [ .dict [("key", .str k), ("value", .str v)] ])])] ])]

def c8F : Features :=
  (extract_contentinfo_features (.dict (harOf "Server" "cloudflare"))).toOption.getD []

/-! ### C3: aggregator failure isolation -/

/-- Comparison definition: `buildRow` with the content extractor's contribution replaced by the
empty feature map — the substitute the claim says a failing content
extractor reduces to (stated from the spec's words for comparison with
`buildRow`). -/
def buildRowNoContent (hostF addF : Extractor) (kvs : List (String × JVal))
    (label : Int) (filename category : String) : Row :=
  let row := rowUpdate [] (toCells (safe_call extract_general_features (.dict kvs)))
  let host_info := pyOr (jGet kvs "host_info" .null) (.dict [])
  let additional := pyOr (jGet kvs "additional" .null) (.dict [])
  let row := rowUpdate row (toCells (safe_call hostF host_info))
  let row := rowUpdate row (toCells (safe_call addF additional))
  let row := jSet row "label" (Cell.num (.int label))
  let row := jSet row "filename" (Cell.txt filename)
  jSet row "category" (Cell.txt category)

def c3Host : Extractor := fun _ => .ok [("host_feature", .int 5)]

def c3Kvs : List (String × JVal) :=
  [("url", .str "http://a.com"), ("content_info", .int 9)]

def c9Ext : Extractor := fun _ => .ok []

def c9Benign : List (String × Option JVal) :=
  [("a.json", some (.dict [("content_status", .int 200)]))]

def c9Rows : List Row := build_global_dataframe c9Ext c9Ext c9Benign []

/-! ### C1: totality versus malformed field types -/

/-- Does a field, when present, satisfy `p`?  (Absent fields are always
fine: every read in the source supplies a well-typed default.) -/
def fieldIs (kvs : List (String × JVal)) (k : String) (p : JVal → Bool) : Bool :=
  match kvs.find? (fun q => q.1 == k) with
  | none => true
  | some q => p q.2

/-- No square brackets (ruling out the bracket `ValueError` of
`urlsplit`). -/
def noBrackets (s : String) : Bool :=
  !(s.toList.contains '[') && !(s.toList.contains ']')

/-- All characters ASCII (ruling out the `_checknetloc` NFKC
`ValueError`, which only non-ASCII netlocs can trigger). -/
def isAsciiStr (s : String) : Bool := s.toList.all (fun c => c.toNat < 128)

def strOnly : JVal → Bool := fun v =>
  match v with
  | .str _ => true
  | _ => false

def strOrNull : JVal → Bool := fun v =>
  match v with
  | .str _ => true
  | .null => true
  | _ => false

def intLike : JVal → Bool := fun v =>
  match v with
  | .int _ => true
  | .bool _ => true
  | _ => false

def urlOKb : JVal → Bool := fun v =>
  match v with
  | .null => true
  | .str s => noBrackets s && isAsciiStr s
  | _ => false

def listAllb (p : JVal → Bool) : JVal → Bool
  | .list xs => xs.all p
  | _ => false

def headerOK : JVal → Bool
  | .dict hd => fieldIs hd "key" strOnly && fieldIs hd "value" strOnly
  | _ => false

def respOKb : JVal → Bool
  | .dict rd => fieldIs rd "headers" (listAllb headerOK)
  | _ => false

def entryOK : JVal → Bool
  | .dict ed => fieldIs ed "response" respOKb
  | _ => false

def responseOK : JVal → Bool
  | .dict rd => fieldIs rd "md5" hashable && fieldIs rd "file_type" strOnly
  | _ => false

/-- Well-typed record for `extract_general_features`: each field the
function reads has, when present, a type its line handles without
raising (`url` a bracket-free ASCII string or None — excluding both
`ValueError`s of `urlsplit` — `subdomain` a string or None,
`has_subdomain`/`content_status` int or bool, `tech_info` a list;
`dns_status` may be anything since `str()` is total). -/
def GeneralWT (kvs : List (String × JVal)) : Bool :=
  fieldIs kvs "url" urlOKb && fieldIs kvs "subdomain" strOrNull &&
  fieldIs kvs "has_subdomain" intLike && fieldIs kvs "content_status" intLike &&
  fieldIs kvs "tech_info" (listAllb (fun _ => true))

/-- Well-typed content_info for `extract_contentinfo_features`
(`error_msg` may be anything since only `is not None` is applied). -/
def ContentWT (kvs : List (String × JVal)) : Bool :=
  fieldIs kvs "status_code" intLike && fieldIs kvs "title" strOrNull &&
  fieldIs kvs "html" strOnly && fieldIs kvs "destination" strOnly &&
  fieldIs kvs "har" (listAllb entryOK) && fieldIs kvs "responses" (listAllb responseOK)

def c1GIn : List (String × JVal) :=
  [("url", .str "https://test.example.org/login?a=1"),
   ("subdomain", .str "test.example.org"), ("has_subdomain", .bool true),
   ("content_status", .int 200), ("dns_status", .str "resolved"),
   ("tech_info", .list [.str "nginx"])]

def c1CIn : List (String × JVal) :=
  [("status_code", .int 200), ("title", .str "Hi"),
   ("html", .str "<form></form>"), ("destination", .str "https://test.example.org/"),
   ("har", .list [ .dict [("response", .dict [("headers", .list [ .dict
      [("key", .str "Content-Type"), ("value", .str "text/html")] ])])] ]),
   ("responses", .list [ .dict [("md5", .str "aa"), ("file_type", .str "ASCII text")] ])]

/-! ### Lemmas and claims -/

theorem exbind_ok {α β : Type} {x : Except String α} {f : α → Except String β} {b : β} :
    x >>= f = .ok b ↔ ∃ a, x = .ok a ∧ f a = .ok b := by
  cases x <;> simp [Bind.bind, Except.bind]

theorem exOk_bind {α β : Type} {x : Except String α} {f : α → Except String β} :
    exOk (x >>= f) = true ↔ ∃ a, x = .ok a ∧ exOk (f a) = true := by
  cases x <;> simp [exOk, Bind.bind, Except.bind]

theorem exmap_ok {α β : Type} {x : Except String α} {g : α → β} {b : β} :
    Except.map g x = .ok b ↔ ∃ a, x = .ok a ∧ g a = b := by
  cases x with
  | error e => simp [Except.map]
  | ok a => simp [Except.map]

theorem asStr_ok {v : JVal} {msg s : String} (h : asStr v msg = .ok s) : v = .str s := by
  cases v <;> simp_all [asStr]

theorem bind_asDict {α : Type} (kvs : List (String × JVal))
    (f : List (String × JVal) → Except String α) :
    (asDict (.dict kvs) >>= f) = f kvs := rfl

theorem pyOr_of_falsy {a b : JVal} (h : truthy a = false) : pyOr a b = b := by
  simp [pyOr, h]

/-- Python `x or y` over two given values is one of them. -/
theorem pyOr_cases (a b : JVal) : pyOr a b = a ∨ pyOr a b = b := by
  unfold pyOr; split <;> simp

theorem find?_map_set_self (kvs : List (String × α)) (k : String) (v : α) :
    (kvs.map (fun p => if p.1 == k then (k, v) else p)).find? (fun p => p.1 == k)
      = if kvs.any (fun p => p.1 == k) then some (k, v) else none := by
  induction kvs with
  | nil => rfl
  | cons hd tl ih =>
    by_cases h : hd.1 = k
    · have h1 : (hd.1 == k) = true := by simp [h]
      simp only [List.map_cons, h1, if_true]
      rw [List.find?_cons_of_pos _ (by simp)]
      have hany : ((hd :: tl).any fun p => p.1 == k) = true := by
        simp [List.any_cons, h1]
      rw [if_pos hany]
    · have h1 : (hd.1 == k) = false := by simp [h]
      simp only [List.map_cons, h1, Bool.false_eq_true, if_false, List.any_cons,
        Bool.false_or]
      rw [List.find?_cons_of_neg _ (by simp [h1]), ih]

theorem find?_map_set_ne (kvs : List (String × α)) (k k' : String) (v : α)
    (hne : k' ≠ k) :
    (kvs.map (fun p => if p.1 == k then (k, v) else p)).find? (fun p => p.1 == k')
      = kvs.find? (fun p => p.1 == k') := by
  have hkk : ¬ k = k' := fun hh => hne hh.symm
  induction kvs with
  | nil => rfl
  | cons hd tl ih =>
    by_cases h : hd.1 = k
    · have h1 : (hd.1 == k) = true := by simp [h]
      have h3 : ¬ hd.1 = k' := by rw [h]; exact hkk
      simp only [List.map_cons, h1, if_true]
      rw [List.find?_cons_of_neg _ (by simp [hkk]),
        List.find?_cons_of_neg _ (by simp [h3])]
      exact ih
    · have h1 : (hd.1 == k) = false := by simp [h]
      simp only [List.map_cons, h1, Bool.false_eq_true, if_false]
      by_cases hc : hd.1 = k'
      · rw [List.find?_cons_of_pos _ (by simp [hc]),
          List.find?_cons_of_pos _ (by simp [hc])]
      · rw [List.find?_cons_of_neg _ (by simp [hc]),
          List.find?_cons_of_neg _ (by simp [hc])]
        exact ih

theorem find?_jSet_self (kvs : List (String × α)) (k : String) (v : α) :
    (jSet kvs k v).find? (fun p => p.1 == k) = some (k, v) := by
  unfold jSet
  split
  next hany => rw [find?_map_set_self, if_pos hany]
  next hany =>
    have hnone : kvs.find? (fun p => p.1 == k) = none := by
      rw [List.find?_eq_none]
      intro p hp hpk
      exact hany (List.any_eq_true.mpr ⟨p, hp, hpk⟩)
    rw [List.find?_append, hnone]
    simp

theorem find?_jSet_ne (kvs : List (String × α)) (k k' : String) (v : α)
    (hne : k' ≠ k) :
    (jSet kvs k v).find? (fun p => p.1 == k') = kvs.find? (fun p => p.1 == k') := by
  unfold jSet
  split
  · exact find?_map_set_ne kvs k k' v hne
  · rw [List.find?_append]
    have : (k == k') = false := by
      simp only [beq_eq_false_iff_ne, ne_eq]
      exact fun hh => hne hh.symm
    simp [this]

theorem jGet_jSet_self (kvs : List (String × JVal)) (k : String) (v d : JVal) :
    jGet (jSet kvs k v) k d = v := by
  unfold jGet
  rw [find?_jSet_self]

theorem jGet_jSet_ne (kvs : List (String × JVal)) (k k' : String) (v d : JVal)
    (hne : k' ≠ k) : jGet (jSet kvs k v) k' d = jGet kvs k' d := by
  unfold jGet
  rw [find?_jSet_ne _ _ _ _ hne]

theorem getKey_jSet_self (r : List (String × α)) (k : String) (v : α) :
    getKey (jSet r k v) k = some v := by
  unfold getKey
  rw [find?_jSet_self]
  rfl

theorem getKey_jSet_ne (r : List (String × α)) (k k' : String) (v : α)
    (hne : k' ≠ k) : getKey (jSet r k v) k' = getKey r k' := by
  unfold getKey
  rw [find?_jSet_ne _ _ _ _ hne]

/-! ### Decomposition of the extractors -/

theorem generalFeatures_keys (v : GVals) :
    (generalFeatures v).map Prod.fst = generalVocab := rfl

theorem contentFeatures_keys (c : CVals) :
    (contentFeatures c).map Prod.fst = contentVocab := rfl

theorem general_ok_iff {d : JVal} {f : Features} :
    extract_general_features d = .ok f ↔
      ∃ v, generalVals d = .ok v ∧ generalFeatures v = f := by
  unfold extract_general_features
  exact exmap_ok

theorem content_ok_iff {d : JVal} {f : Features} :
    extract_contentinfo_features d = .ok f ↔
      ∃ c, contentVals d = .ok c ∧ contentFeatures c = f := by
  unfold extract_contentinfo_features
  exact exmap_ok

theorem general_ok_keys {d : JVal} {f : Features}
    (h : extract_general_features d = .ok f) : f.map Prod.fst = generalVocab := by
  obtain ⟨v, _, rfl⟩ := general_ok_iff.mp h
  exact generalFeatures_keys v

theorem content_ok_keys {d : JVal} {f : Features}
    (h : extract_contentinfo_features d = .ok f) : f.map Prod.fst = contentVocab := by
  obtain ⟨c, _, rfl⟩ := content_ok_iff.mp h
  exact contentFeatures_keys c

theorem generalVals_parts {kvs : List (String × JVal)} {v : GVals}
    (h : generalVals (.dict kvs) = .ok v) :
    pyOr (jGet kvs "url" (.str "")) (.str "") = .str v.url ∧
    pyInt (jGet kvs "content_status" (.int 0)) = .ok v.contentStatus := by
  unfold generalVals at h
  simp only [exbind_ok, asDict, Except.ok.injEq, exists_eq_left'] at h
  obtain ⟨url, hurl, p, hp, hs, hhs, sub, hsub, cs, hcs, tl, htl, hv⟩ := h
  have hv' : GVals.mk url p.scheme p.netloc p.path p.query hs sub
      (pyLower (pyStr (jGet kvs "dns_status" (.str "")))) cs tl
      (truthy (jGet kvs "tech_info" (.list []))) = v := by
    simpa [pure, Except.pure] using hv
  subst hv'
  exact ⟨asStr_ok hurl, hcs⟩

theorem contentVals_dest {kvs : List (String × JVal)} {c : CVals}
    (h : contentVals (.dict kvs) = .ok c) :
    jGet kvs "destination" (.str "") = .str c.dest := by
  unfold contentVals at h
  simp only [exbind_ok, asDict, Except.ok.injEq, exists_eq_left'] at h
  obtain ⟨sc, hsc, tlen, htlen, hlen, hhlen, html, hhtml, dest, hdest, harl, hharl,
    respl, hrespl, entries, hentries, svs, hsvs, rs, hrs, md5s, hmd5s, hok, hhok,
    triple, htriple, hv⟩ := h
  have hv' : CVals.mk sc
      (match jGet kvs "error_msg" JVal.null with | JVal.null => false | _ => true)
      tlen (truthy (jGet kvs "html" .null)) hlen (pyLower html) dest harl respl
      svs.1 svs.2 (distinctCount md5s : Nat) triple.1 triple.2.1 triple.2.2 = c := by
    simpa [pure, Except.pure] using hv
  subst hv'
  exact asStr_ok hdest

/-- Rational rounding to 3 decimals keeps `[0, 1)` inside `[0, 1]`. -/
theorem roundTo3_mem {q : ℚ} (h0 : 0 ≤ q) (h1 : q < 1) :
    0 ≤ roundTo3 q ∧ roundTo3 q ≤ 1 := by
  unfold roundTo3
  have hlow : (0 : ℤ) ≤ round (q * 1000) := by
    rw [round_eq]
    apply Int.le_floor.mpr
    push_cast
    linarith
  have hhigh : round (q * 1000) ≤ 1000 := by
    rw [round_eq]
    have : ⌊q * 1000 + 1 / 2⌋ < 1001 := by
      apply Int.floor_lt.mpr
      push_cast
      linarith
    omega
  constructor
  · apply div_nonneg _ (by norm_num)
    exact_mod_cast hlow
  · rw [div_le_one (by norm_num)]
    exact_mod_cast hhigh

/-! ### Feature lookups as functions of the gathered values -/

theorem gk_url_length (v : GVals) :
    getKey (generalFeatures v) "url_length" = some (.int v.url.length) := rfl

theorem gk_num_digits (v : GVals) :
    getKey (generalFeatures v) "num_digits_in_url" =
      some (.int ((v.url.toList.countP Char.isDigit : Nat) : Int)) := rfl

theorem gk_num_special (v : GVals) :
    getKey (generalFeatures v) "num_special_chars" =
      some (.int ((v.url.toList.countP (fun c => !c.isAlphanum) : Nat) : Int)) := rfl

theorem gk_digit_ratio (v : GVals) :
    getKey (generalFeatures v) "digit_ratio" =
      some (.rat (roundTo3 ((((v.url.toList.countP Char.isDigit : Nat) : Int) : ℚ) /
        ((v.url.length : ℚ) + 1)))) := rfl

theorem gk_special_ratio (v : GVals) :
    getKey (generalFeatures v) "special_char_ratio" =
      some (.rat (roundTo3 ((((v.url.toList.countP (fun c => !c.isAlphanum) : Nat) : Int) : ℚ) /
        ((v.url.length : ℚ) + 1)))) := rfl

theorem gk_content_status (v : GVals) :
    getKey (generalFeatures v) "content_status" = some (.int v.contentStatus) := rfl

theorem gk_http_ok (v : GVals) :
    getKey (generalFeatures v) "is_http_ok" =
      some (.int (if 200 ≤ v.contentStatus ∧ v.contentStatus < 300 then 1 else 0)) := rfl

theorem gk_http_redirect (v : GVals) :
    getKey (generalFeatures v) "is_http_redirect" =
      some (.int (if 300 ≤ v.contentStatus ∧ v.contentStatus < 400 then 1 else 0)) := rfl

theorem gk_http_client (v : GVals) :
    getKey (generalFeatures v) "is_http_client_error" =
      some (.int (if 400 ≤ v.contentStatus ∧ v.contentStatus < 500 then 1 else 0)) := rfl

theorem gk_http_server (v : GVals) :
    getKey (generalFeatures v) "is_http_server_error" =
      some (.int (if 500 ≤ v.contentStatus ∧ v.contentStatus < 600 then 1 else 0)) := rfl

theorem gk_encoded (v : GVals) :
    getKey (generalFeatures v) "contains_encoded_chars" =
      some (bI (pyIn "%" v.url || pyIn "+" v.url || pyIn "-" v.url ||
        pyIn "_" v.url || pyIn "=" v.url)) := rfl

theorem ck_encoded (c : CVals) :
    getKey (contentFeatures c) "contains_encoded_chars" =
      some (bI (pyIn "%" c.dest || pyIn "+" c.dest || pyIn "-" c.dest ||
        pyIn "_" c.dest)) := rfl

theorem ck_cloudflare (c : CVals) :
    getKey (contentFeatures c) "has_cloudflare" =
      some (bI (pyIn "cloudflare" (joinSp c.servers))) := rfl

theorem generalVals_empty : generalVals (.dict []) = .ok gv0 := rfl

theorem contentVals_empty : contentVals (.dict []) = .ok cv0 := rfl

/-- C5: `extract_general_features({})` and `extract_contentinfo_features({})`
each return normally the vector over exactly the extractor's fixed key
vocabulary whose every value is 0 — 0.0 for the two ratio features and
for `avg_file_size_class`, which are Python floats — and on every input
on which an extractor returns, its key list is that same fixed
vocabulary. -/
theorem claim_C5 :
    extract_general_features (.dict []) =
      .ok (zeroRow generalVocab ["digit_ratio", "special_char_ratio"]) ∧
    extract_contentinfo_features (.dict []) =
      .ok (zeroRow contentVocab ["avg_file_size_class"]) ∧
    (∀ d f, extract_general_features d = .ok f → f.map Prod.fst = generalVocab) ∧
    (∀ d g, extract_contentinfo_features d = .ok g → g.map Prod.fst = contentVocab) := by
  refine ⟨?_, ?_, fun d f h => general_ok_keys h, fun d g h => content_ok_keys h⟩
  · show Except.map generalFeatures (generalVals (.dict [])) = _
    rw [generalVals_empty]
    show Except.ok (generalFeatures gv0) = _
    congr 1
    have h1 : roundTo3 (((("".toList.countP Char.isDigit : Nat) : Int) : ℚ) /
        (("".length : ℚ) + 1)) = 0 := by
      norm_num [roundTo3]
    have h2 : roundTo3 (((("".toList.countP (fun c => !c.isAlphanum) : Nat) : Int) : ℚ) /
        (("".length : ℚ) + 1)) = 0 := by
      norm_num [roundTo3]
    simp only [generalFeatures, gv0]
    rw [h1, h2]
    decide
  · show Except.map contentFeatures (contentVals (.dict [])) = _
    rw [contentVals_empty]
    show Except.ok (contentFeatures cv0) = _
    congr 1
    have h3 : (((0 : Int) : ℚ)) / (if True then (1 : ℚ) else ((0 : Int) : ℚ))
        = 0 := by
      norm_num
    simp only [contentFeatures, cv0]
    rw [h3]
    decide

theorem claim_C5_witness :
    extract_general_features c5In = .ok c5F ∧ c5F.map Prod.fst = generalVocab := by
  have hok : extract_general_features c5In = .ok c5F := by rfl
  exact ⟨hok, claim_C5.2.2.1 c5In c5F hok⟩

/-- C6: whenever `extract_general_features` succeeds, the four HTTP
bucket features are the indicator functions of the ranges [200,300),
[300,400), [400,500), [500,600) of the coerced `content_status`, and
their sum is 1 exactly when the status lies in [200,600) and 0 outside
— so the buckets are mutually exclusive, exactly one is set in range,
and all four are 0 out of range. -/
theorem claim_C6 (d : JVal) (f : Features) (cs : Int)
    (h : extract_general_features d = .ok f)
    (hcs : getKey f "content_status" = some (.int cs)) :
    getKey f "is_http_ok" = some (.int (if 200 ≤ cs ∧ cs < 300 then 1 else 0)) ∧
    getKey f "is_http_redirect" = some (.int (if 300 ≤ cs ∧ cs < 400 then 1 else 0)) ∧
    getKey f "is_http_client_error" = some (.int (if 400 ≤ cs ∧ cs < 500 then 1 else 0)) ∧
    getKey f "is_http_server_error" = some (.int (if 500 ≤ cs ∧ cs < 600 then 1 else 0)) ∧
    ((if 200 ≤ cs ∧ cs < 300 then (1 : Int) else 0) +
      (if 300 ≤ cs ∧ cs < 400 then (1 : Int) else 0) +
      (if 400 ≤ cs ∧ cs < 500 then (1 : Int) else 0) +
      (if 500 ≤ cs ∧ cs < 600 then (1 : Int) else 0) =
      if 200 ≤ cs ∧ cs < 600 then 1 else 0) := by
  obtain ⟨v, hv, rfl⟩ := general_ok_iff.mp h
  rw [gk_content_status] at hcs
  have hcs' : v.contentStatus = cs := by
    simpa using hcs
  subst hcs'
  exact ⟨gk_http_ok v, gk_http_redirect v, gk_http_client v, gk_http_server v,
    by split_ifs <;> omega⟩

theorem claim_C6_witness :
    getKey c6F "is_http_ok" = some (.int 0) ∧
    getKey c6F "is_http_redirect" = some (.int 0) ∧
    getKey c6F "is_http_client_error" = some (.int 1) ∧
    getKey c6F "is_http_server_error" = some (.int 0) := by
  have h := claim_C6 c6In c6F 404 (by rfl) (by rfl)
  exact ⟨by rw [h.1]; decide, by rw [h.2.1]; decide,
    by rw [h.2.2.1]; decide, by rw [h.2.2.2.1]; decide⟩

/-- C7: whenever `extract_general_features` succeeds, `digit_ratio` and
`special_char_ratio` are exactly `round(count / (url_length + 1), 3)` of
the digit and special-character counts, the denominator `url_length + 1`
is strictly positive, and both rounded ratios lie in [0, 1]. -/
theorem claim_C7 (d : JVal) (f : Features) (h : extract_general_features d = .ok f) :
    ∃ nd ns L : Int,
      getKey f "num_digits_in_url" = some (.int nd) ∧
      getKey f "num_special_chars" = some (.int ns) ∧
      getKey f "url_length" = some (.int L) ∧
      0 < L + 1 ∧
      getKey f "digit_ratio" = some (.rat (roundTo3 ((nd : ℚ) / ((L : ℚ) + 1)))) ∧
      getKey f "special_char_ratio" = some (.rat (roundTo3 ((ns : ℚ) / ((L : ℚ) + 1)))) ∧
      0 ≤ roundTo3 ((nd : ℚ) / ((L : ℚ) + 1)) ∧
      roundTo3 ((nd : ℚ) / ((L : ℚ) + 1)) ≤ 1 ∧
      0 ≤ roundTo3 ((ns : ℚ) / ((L : ℚ) + 1)) ∧
      roundTo3 ((ns : ℚ) / ((L : ℚ) + 1)) ≤ 1 := by
  obtain ⟨v, hv, rfl⟩ := general_ok_iff.mp h
  have hcast : (((v.url.length : Nat) : Int) : ℚ) = (v.url.length : ℚ) := by
    push_cast
    ring
  have hndle : v.url.toList.countP Char.isDigit ≤ v.url.length :=
    List.countP_le_length _
  have hnsle : v.url.toList.countP (fun c => !c.isAlphanum) ≤ v.url.length :=
    List.countP_le_length _
  have hdenom : (0 : ℚ) < (v.url.length : ℚ) + 1 := by positivity
  have hbd : ∀ n : Nat, n ≤ v.url.length →
      0 ≤ (((n : Int) : ℚ) / (((v.url.length : Int) : ℚ) + 1)) ∧
      (((n : Int) : ℚ) / (((v.url.length : Int) : ℚ) + 1)) < 1 := by
    intro n hn
    rw [hcast]
    constructor
    · apply div_nonneg _ (le_of_lt hdenom)
      positivity
    · rw [div_lt_one hdenom]
      push_cast
      exact_mod_cast lt_of_le_of_lt (Nat.cast_le.mpr hn) (by push_cast; linarith)
  refine ⟨(v.url.toList.countP Char.isDigit : Nat),
    (v.url.toList.countP (fun c => !c.isAlphanum) : Nat),
    (v.url.length : Nat),
    gk_num_digits v, gk_num_special v, gk_url_length v, by omega, ?_, ?_, ?_, ?_, ?_, ?_⟩
  · rw [gk_digit_ratio v, hcast]
  · rw [gk_special_ratio v, hcast]
  · exact (roundTo3_mem (hbd _ hndle).1 (hbd _ hndle).2).1
  · exact (roundTo3_mem (hbd _ hndle).1 (hbd _ hndle).2).2
  · exact (roundTo3_mem (hbd _ hnsle).1 (hbd _ hnsle).2).1
  · exact (roundTo3_mem (hbd _ hnsle).1 (hbd _ hnsle).2).2

theorem claim_C7_witness :
    (∃ nd ns L : Int,
      getKey c7F "num_digits_in_url" = some (.int nd) ∧
      getKey c7F "num_special_chars" = some (.int ns) ∧
      getKey c7F "url_length" = some (.int L) ∧
      0 < L + 1 ∧
      getKey c7F "digit_ratio" = some (.rat (roundTo3 ((nd : ℚ) / ((L : ℚ) + 1)))) ∧
      getKey c7F "special_char_ratio" = some (.rat (roundTo3 ((ns : ℚ) / ((L : ℚ) + 1)))) ∧
      0 ≤ roundTo3 ((nd : ℚ) / ((L : ℚ) + 1)) ∧
      roundTo3 ((nd : ℚ) / ((L : ℚ) + 1)) ≤ 1 ∧
      0 ≤ roundTo3 ((ns : ℚ) / ((L : ℚ) + 1)) ∧
      roundTo3 ((ns : ℚ) / ((L : ℚ) + 1)) ≤ 1) :=
  claim_C7 c7In c7F (by rfl)

/-- A string in which `=` occurs is nonempty, hence truthy. -/
theorem pyIn_eq_nonempty {s : String} (h : pyIn "=" s = true) :
    truthy (.str s) = true := by
  cases he : s.isEmpty with
  | false => simp [truthy, he]
  | true =>
    have hs : s = "" := (String.isEmpty_iff s).mp he
    subst hs
    exact absurd h (by decide)

/-- C10: the content extractor's encoded-character indicator on the
destination URL does not treat `=` as an encoding marker (its marker set
is %, +, -, _), unlike the URL extractor's indicator on the raw url
whose marker set also contains `=`: a destination containing `=` but
none of the four markers gives contains_encoded_chars = 0 from
`extract_contentinfo_features`, while any url containing `=` gives
contains_encoded_chars = 1 from `extract_general_features`. -/
theorem claim_C10 :
    (∀ (kvs : List (String × JVal)) (s : String) (f : Features),
      jGet kvs "destination" (.str "") = .str s →
      pyIn "=" s = true → pyIn "%" s = false → pyIn "+" s = false →
      pyIn "-" s = false → pyIn "_" s = false →
      extract_contentinfo_features (.dict kvs) = .ok f →
      getKey f "contains_encoded_chars" = some (.int 0)) ∧
    (∀ (kvs : List (String × JVal)) (s : String) (f : Features),
      jGet kvs "url" (.str "") = .str s → pyIn "=" s = true →
      extract_general_features (.dict kvs) = .ok f →
      getKey f "contains_encoded_chars" = some (.int 1)) := by
  constructor
  · intro kvs s f hdest heq h1 h2 h3 h4 hok
    obtain ⟨c, hc, rfl⟩ := content_ok_iff.mp hok
    have hds : c.dest = s := by
      have := (contentVals_dest hc).symm.trans hdest
      injection this
    rw [ck_encoded, hds, h1, h2, h3, h4]
    rfl
  · intro kvs s f hurl heq hok
    obtain ⟨v, hv, rfl⟩ := general_ok_iff.mp hok
    obtain ⟨hu, _⟩ := generalVals_parts hv
    rw [hurl] at hu
    rw [show pyOr (JVal.str s) (.str "") = .str s from by
      simp [pyOr, pyIn_eq_nonempty heq]] at hu
    have hus : s = v.url := by injection hu
    rw [gk_encoded, ← hus, heq]
    simp [bI]

theorem claim_C10_witness :
    getKey c10CF "contains_encoded_chars" = some (.int 0) ∧
    getKey c10GF "contains_encoded_chars" = some (.int 1) :=
  ⟨claim_C10.1 c10CIn "a=b" c10CF (by rfl) (by decide) (by decide) (by decide)
      (by decide) (by decide) (by rfl),
   claim_C10.2 c10GIn "x=1" c10GF (by rfl) (by decide) (by rfl)⟩

/-- C2 counterexample: the claim says no key emitted by
`extract_general_features` is also emitted by
`extract_contentinfo_features`; but already on the input `{}` both
extractors emit `url_length`, `contains_ip_in_url` and
`contains_encoded_chars`. -/
theorem claim_C2_cex :
    (getKey gEmptyF "url_length").isSome = true ∧
    (getKey cEmptyF "url_length").isSome = true ∧
    (getKey gEmptyF "contains_ip_in_url").isSome = true ∧
    (getKey cEmptyF "contains_ip_in_url").isSome = true ∧
    (getKey gEmptyF "contains_encoded_chars").isSome = true ∧
    (getKey cEmptyF "contains_encoded_chars").isSome = true := by
  decide

/-- C2 amended: the two vocabularies are not disjoint — they overlap in
exactly the three keys url_length, contains_ip_in_url and
contains_encoded_chars (so the aggregator's later merge overwrites the
general extractor's values for exactly these three keys); every run of
an extractor emits exactly its fixed vocabulary. -/
theorem claim_C2_amended :
    generalVocab.filter (fun k => contentVocab.contains k) =
      ["url_length", "contains_ip_in_url", "contains_encoded_chars"] ∧
    (∀ d f, extract_general_features d = .ok f → f.map Prod.fst = generalVocab) ∧
    (∀ d g, extract_contentinfo_features d = .ok g → g.map Prod.fst = contentVocab) :=
  ⟨by decide, fun d f h => general_ok_keys h, fun d g h => content_ok_keys h⟩

theorem claim_C2_witness : c2F.map Prod.fst = generalVocab :=
  claim_C2_amended.2.1 c2In c2F (by rfl)

/-- C4 counterexample: the claim says a non-integer `content_status`
leads to a normal return with content_status = 0 when conversion fails;
but on `{"content_status": "abc"}` the source's `int(...)` (line 87)
raises ValueError, so `extract_general_features` raises. -/
theorem claim_C4_cex :
    extract_general_features (.dict [("content_status", .str "abc")]) =
      .error "ValueError: invalid literal for int" := rfl

/-- C4 amended: a *falsy* `url` value (None, False, 0, "", empty
containers) is coerced to the empty string — the result is identical to
the same record with url = "" — but a truthy non-string url raises (see
the counterexample for C1); and `content_status` goes through `int()`
with no fallback: whenever the extractor returns, the conversion
succeeded and its value is the emitted content_status, while a
non-convertible value raises (the counterexample) instead of
defaulting to 0.  The orchestrator's safe_call absorbs these
exceptions. -/
theorem claim_C4_amended :
    (∀ (kvs : List (String × JVal)) (v : JVal),
      jGet kvs "url" (.str "") = v → truthy v = false →
      extract_general_features (.dict kvs) =
        extract_general_features (.dict (jSet kvs "url" (.str "")))) ∧
    (∀ (kvs : List (String × JVal)) (f : Features),
      extract_general_features (.dict kvs) = .ok f →
      ∃ n, pyInt (jGet kvs "content_status" (.int 0)) = .ok n ∧
        getKey f "content_status" = some (.int n)) := by
  constructor
  · intro kvs v hv hfal
    unfold extract_general_features
    congr 1
    unfold generalVals
    rw [bind_asDict, bind_asDict]
    simp only []
    rw [jGet_jSet_self]
    rw [jGet_jSet_ne kvs "url" "subdomain" _ _ (by decide)]
    rw [jGet_jSet_ne kvs "url" "has_subdomain" _ _ (by decide)]
    rw [jGet_jSet_ne kvs "url" "dns_status" _ _ (by decide)]
    rw [jGet_jSet_ne kvs "url" "content_status" _ _ (by decide)]
    rw [jGet_jSet_ne kvs "url" "tech_info" _ _ (by decide)]
    rw [hv, pyOr_of_falsy hfal, pyOr_of_falsy (show truthy (.str "") = false from rfl)]
  · intro kvs f hok
    obtain ⟨v, hv, rfl⟩ := general_ok_iff.mp hok
    exact ⟨v.contentStatus, (generalVals_parts hv).2, gk_content_status v⟩

theorem claim_C4_witness :
    extract_general_features (.dict c4In) =
      extract_general_features (.dict (jSet c4In "url" (.str ""))) ∧
    getKey c4F "content_status" = some (.int 7) := by
  refine ⟨claim_C4_amended.1 c4In .null rfl rfl, ?_⟩
  obtain ⟨n, hn, hg⟩ := claim_C4_amended.2 c4In c4F (by rfl)
  have h0 : pyInt (jGet c4In "content_status" (.int 0)) = .ok 7 := by rfl
  have hn7 : (7 : Int) = n := by
    have := h0.symm.trans hn
    injection this
  rw [← hn7] at hg
  exact hg

theorem headerStep_server (k v : String) (hk : pyLower k = "server")
    (acc : List String × List String) :
    headerStep acc (.dict [("key", .str k), ("value", .str v)]) =
      .ok (acc.1 ++ [pyLower v], acc.2) := by
  unfold headerStep
  simp [asDict, jGet, asStr, bind, Except.bind, pure, Except.pure, hk]

theorem entryStep_harOf (k v : String) (hk : pyLower k = "server") :
    entryStep ([], []) (.dict [("response", .dict [("headers",
      .list [ .dict [("key", .str k), ("value", .str v)] ])])]) =
      .ok ([pyLower v], []) := by
  have h1 : entryStep ([], []) (.dict [("response", .dict [("headers",
      .list [ .dict [("key", .str k), ("value", .str v)] ])])]) =
      ([ .dict [("key", .str k), ("value", .str v)] ] : List JVal).foldlM
        headerStep ([], []) := rfl
  rw [h1]
  simp only [List.foldlM]
  rw [headerStep_server k v hk]
  rfl

/-- The gathered values of the content extractor on `harOf k v` when the
key lowercases to `server`: one request, the lowercased value collected
as the only server string. -/
theorem contentVals_harOf (k v : String) (hk : pyLower k = "server") :
    contentVals (.dict (harOf k v)) =
      .ok ⟨0, false, 0, false, 0, "", "", 1, 0, [pyLower v], [], 0, 0, 0, 0⟩ := by
  have key : contentVals (.dict (harOf k v)) =
      (([ .dict [("response", .dict [("headers",
        .list [ .dict [("key", .str k), ("value", .str v)] ])])] ] : List JVal).foldlM
          entryStep ([], [])) >>= (fun sc =>
        Except.ok ⟨0, false, 0, false, 0, "", "", 1, 0, sc.1, sc.2, 0, 0, 0, 0⟩) := rfl
  rw [key]
  simp only [List.foldlM]
  rw [entryStep_harOf k v hk]
  rfl

/-- C8: the HAR server-header aggregation is case-insensitive on key and
value: for a single header whose key lowercases to `server`, the
lowercased value becomes the joined server string, and `has_cloudflare`
is exactly the indicator of `cloudflare` occurring in that lowercased
value. -/
theorem claim_C8 (k v : String) (hk : pyLower k = "server") :
    ∃ f, extract_contentinfo_features (.dict (harOf k v)) = .ok f ∧
      getKey f "has_cloudflare" =
        some (.int (if pyIn "cloudflare" (pyLower v) then 1 else 0)) := by
  refine ⟨contentFeatures ⟨0, false, 0, false, 0, "", "", 1, 0, [pyLower v],
    [], 0, 0, 0, 0⟩, ?_, ?_⟩
  · show Except.map contentFeatures (contentVals (.dict (harOf k v))) = _
    rw [contentVals_harOf k v hk]
    rfl
  · rw [ck_cloudflare]
    rw [show joinSp [pyLower v] = pyLower v from rfl]
    rfl

theorem claim_C8_witness : getKey c8F "has_cloudflare" = some (.int 1) := by
  obtain ⟨f, hf, hg⟩ := claim_C8 "Server" "cloudflare" (by decide)
  have h2 : extract_contentinfo_features (.dict (harOf "Server" "cloudflare")) =
      .ok c8F := by rfl
  rw [h2] at hf
  injection hf with hf
  rw [← hf] at hg
  rw [hg]
  decide

/-- Python `x or {}` is never `None`. -/
theorem pyOr_dictE_ne_null (a : JVal) : pyOr a (.dict []) ≠ .null := by
  cases a <;> unfold pyOr <;> split <;> simp_all [truthy]

/-- When the wrapped extractor raises on a non-`None` argument,
`safe_call` returns the empty feature map. -/
theorem safe_call_of_error {f : Extractor} {arg : JVal} {e : String}
    (hnn : arg ≠ .null) (he : f arg = .error e) : safe_call f arg = [] := by
  unfold safe_call
  cases arg with
  | null => exact absurd rfl hnn
  | bool b => simp [he]
  | int n => simp [he]
  | str s => simp [he]
  | list xs => simp [he]
  | dict kvs => simp [he]

theorem rowOfFile_isSome (hostF addF : Extractor) (label : Int) (cat : String)
    (file : String × Option JVal) :
    (rowOfFile hostF addF label cat file).isSome = validRecord file := by
  unfold rowOfFile validRecord
  rcases file with ⟨fn, od⟩
  cases od with
  | none => rfl
  | some d =>
    dsimp only
    split
    · cases d <;> rfl
    · rfl

theorem processCategory_length (hostF addF : Extractor)
    (files : List (String × Option JVal)) (label : Int) (cat : String) :
    (processCategory hostF addF files label cat).length =
      (files.filter validRecord).length := by
  induction files with
  | nil => rfl
  | cons hd tl ih =>
    unfold processCategory at ih ⊢
    rw [List.filterMap_cons, List.filter_cons]
    cases hr : rowOfFile hostF addF label cat hd with
    | none =>
      have hval : validRecord hd = false := by
        rw [← rowOfFile_isSome hostF addF label cat hd, hr]
        rfl
      simp [hval, ih]
    | some r =>
      have hval : validRecord hd = true := by
        rw [← rowOfFile_isSome hostF addF label cat hd, hr]
        rfl
      simp [hval, ih]

/-- C3: if the content extractor raises on the content_info sub-object
of a record, the row the aggregator builds is exactly the row built with
an empty feature map substituted for the content extractor alone — all
keys and values contributed by the other extractors and the metadata are
untouched; and the number of rows in the dataset is always the number of
valid records, whatever the extractors do, so the record stays in the
dataset and the batch runs to completion. -/
theorem claim_C3 :
    (∀ (hostF addF : Extractor) (kvs : List (String × JVal)) (label : Int)
      (fn cat e : String),
      extract_contentinfo_features (pyOr (jGet kvs "content_info" .null) (.dict []))
        = .error e →
      buildRow hostF addF kvs label fn cat =
        buildRowNoContent hostF addF kvs label fn cat) ∧
    (∀ (hostF addF : Extractor) (benign mal : List (String × Option JVal)),
      (build_global_dataframe hostF addF benign mal).length =
        (benign.filter validRecord).length + (mal.filter validRecord).length) := by
  constructor
  · intro hostF addF kvs label fn cat e he
    unfold buildRow buildRowNoContent
    dsimp only
    rw [safe_call_of_error (pyOr_dictE_ne_null _) he]
    rfl
  · intro hostF addF benign mal
    unfold build_global_dataframe
    rw [List.length_append]
    rw [processCategory_length, processCategory_length]

theorem claim_C3_witness :
    buildRow c3Host c3Host c3Kvs 1 "f.json" "benign" =
      buildRowNoContent c3Host c3Host c3Kvs 1 "f.json" "benign" ∧
    (build_global_dataframe c3Host c3Host [("a.json", some (.dict c3Kvs))] []).length
      = 1 := by
  constructor
  · exact claim_C3.1 c3Host c3Host c3Kvs 1 "f.json" "benign"
      "AttributeError: object has no attribute get" (by rfl)
  · rw [claim_C3.2 c3Host c3Host [("a.json", some (.dict c3Kvs))] []]
    rfl

/-! ### C9: label/category coupling -/

theorem buildRow_label (hostF addF : Extractor) (kvs : List (String × JVal))
    (label : Int) (fn cat : String) :
    getKey (buildRow hostF addF kvs label fn cat) "label" =
      some (.num (.int label)) := by
  unfold buildRow
  rw [getKey_jSet_ne _ "category" "label" _ (by decide),
    getKey_jSet_ne _ "filename" "label" _ (by decide), getKey_jSet_self]

theorem buildRow_category (hostF addF : Extractor) (kvs : List (String × JVal))
    (label : Int) (fn cat : String) :
    getKey (buildRow hostF addF kvs label fn cat) "category" =
      some (.txt cat) := by
  unfold buildRow
  rw [getKey_jSet_self]

theorem mem_processCategory_label {hostF addF : Extractor} {row : Row}
    {files : List (String × Option JVal)} {label : Int} {cat : String}
    (hmem : row ∈ processCategory hostF addF files label cat) :
    getKey row "label" = some (.num (.int label)) ∧
    getKey row "category" = some (.txt cat) := by
  unfold processCategory at hmem
  rw [List.mem_filterMap] at hmem
  obtain ⟨file, hf, hrow⟩ := hmem
  unfold rowOfFile at hrow
  rcases file with ⟨fn, od⟩
  cases od with
  | none => cases hrow
  | some d =>
    dsimp only at hrow
    split at hrow
    · cases d with
      | dict kvs =>
        injection hrow with hrow
        rw [← hrow]
        exact ⟨buildRow_label hostF addF kvs label fn cat,
          buildRow_category hostF addF kvs label fn cat⟩
      | null => cases hrow
      | bool b => cases hrow
      | int n => cases hrow
      | str s => cases hrow
      | list xs => cases hrow
    · cases hrow

/-- C9: every row built by `build_global_dataframe` has label 1 exactly
when its category is "benign" and label 0 exactly when its category is
"malicious" — records of the benign collection are labeled 1, records of
the malicious collection 0. -/
theorem claim_C9 (hostF addF : Extractor) (benign mal : List (String × Option JVal))
    (row : Row) (h : row ∈ build_global_dataframe hostF addF benign mal) :
    (getKey row "label" = some (.num (.int 1)) ↔
      getKey row "category" = some (.txt "benign")) ∧
    (getKey row "label" = some (.num (.int 0)) ↔
      getKey row "category" = some (.txt "malicious")) := by
  unfold build_global_dataframe at h
  rw [List.mem_append] at h
  rcases h with h | h
  · obtain ⟨h1, h2⟩ := mem_processCategory_label h
    rw [h1, h2]
    constructor <;> simp
  · obtain ⟨h1, h2⟩ := mem_processCategory_label h
    rw [h1, h2]
    constructor <;> simp

theorem claim_C9_witness :
    (getKey c9Rows.headI "label" = some (.num (.int 1)) ↔
      getKey c9Rows.headI "category" = some (.txt "benign")) ∧
    (getKey c9Rows.headI "label" = some (.num (.int 0)) ↔
      getKey c9Rows.headI "category" = some (.txt "malicious")) := by
  have hmem : c9Rows.headI ∈ c9Rows := by
    have hlen : c9Rows.length = 1 := by rfl
    cases hc : c9Rows with
    | nil => rw [hc] at hlen; cases hlen
    | cons a t => simp [List.headI]
  exact claim_C9 c9Ext c9Ext c9Benign [] c9Rows.headI hmem

theorem exOk_iff {α : Type} {x : Except String α} : exOk x = true ↔ ∃ a, x = .ok a := by
  cases x <;> simp [exOk]

theorem field_str {kvs : List (String × JVal)} {k : String}
    (h : fieldIs kvs k strOnly = true) : ∃ t, jGet kvs k (.str "") = .str t := by
  unfold fieldIs at h
  unfold jGet
  cases hf : kvs.find? (fun q => q.1 == k) with
  | none => exact ⟨"", rfl⟩
  | some q =>
    rw [hf] at h
    rcases q with ⟨a, b⟩
    cases b <;> simp [strOnly] at h
    exact ⟨_, rfl⟩

theorem field_url {kvs : List (String × JVal)}
    (h : fieldIs kvs "url" urlOKb = true) :
    ∃ s, pyOr (jGet kvs "url" (.str "")) (.str "") = .str s ∧
      noBrackets s = true ∧ isAsciiStr s = true := by
  unfold fieldIs at h
  unfold jGet
  cases hf : kvs.find? (fun q => q.1 == "url") with
  | none => exact ⟨"", by simp [pyOr, truthy], rfl, rfl⟩
  | some q =>
    rw [hf] at h
    rcases q with ⟨a, b⟩
    cases b with
    | null => exact ⟨"", by simp [pyOr, truthy], rfl, rfl⟩
    | str s =>
      simp only [urlOKb, Bool.and_eq_true] at h
      by_cases ht : truthy (.str s) = true
      · exact ⟨s, by simp [pyOr, ht], h.1, h.2⟩
      · refine ⟨"", ?_, rfl, rfl⟩
        rw [pyOr_of_falsy (Bool.not_eq_true _ ▸ ht)]
    | bool b => simp [urlOKb] at h
    | int n => simp [urlOKb] at h
    | list xs => simp [urlOKb] at h
    | dict d => simp [urlOKb] at h

theorem field_sub {kvs : List (String × JVal)} (nl : String)
    (h : fieldIs kvs "subdomain" strOrNull = true) :
    ∃ t, pyOr (pyOr (jGet kvs "subdomain" (.str "")) (.str nl)) (.str "") = .str t := by
  have hbase : ∀ v : JVal, strOrNull v = true →
      ∃ t, pyOr (pyOr v (.str nl)) (.str "") = .str t := by
    intro v hv
    have hstr : ∃ u, pyOr v (.str nl) = .str u := by
      cases v <;> simp [strOrNull] at hv
      · exact ⟨nl, by simp [pyOr, truthy]⟩
      · rename_i s
        by_cases ht : truthy (.str s) = true
        · exact ⟨s, by simp [pyOr, ht]⟩
        · exact ⟨nl, by rw [pyOr_of_falsy (Bool.not_eq_true _ ▸ ht)]⟩
    obtain ⟨u, hu⟩ := hstr
    rw [hu]
    by_cases ht : truthy (.str u) = true
    · exact ⟨u, by simp [pyOr, ht]⟩
    · exact ⟨"", by rw [pyOr_of_falsy (Bool.not_eq_true _ ▸ ht)]⟩
  unfold fieldIs at h
  unfold jGet
  cases hf : kvs.find? (fun q => q.1 == "subdomain") with
  | none => exact hbase (.str "") rfl
  | some q =>
    rw [hf] at h
    exact hbase q.2 h

theorem pyInt_intLike {v : JVal} (h : intLike v = true) : ∃ n, pyInt v = .ok n := by
  cases v <;> simp [intLike] at h <;> exact ⟨_, rfl⟩

theorem field_intLike {kvs : List (String × JVal)} {k : String} {d : JVal}
    (hd : intLike d = true) (h : fieldIs kvs k intLike = true) :
    ∃ n, pyInt (jGet kvs k d) = .ok n := by
  unfold fieldIs at h
  unfold jGet
  cases hf : kvs.find? (fun q => q.1 == k) with
  | none => exact pyInt_intLike hd
  | some q =>
    rw [hf] at h
    exact pyInt_intLike h

theorem field_listAll {kvs : List (String × JVal)} {k : String} {p : JVal → Bool}
    (h : fieldIs kvs k (listAllb p) = true) :
    ∃ xs, jGet kvs k (.list []) = .list xs ∧ xs.all p = true := by
  unfold fieldIs at h
  unfold jGet
  cases hf : kvs.find? (fun q => q.1 == k) with
  | none => exact ⟨[], rfl, rfl⟩
  | some q =>
    rw [hf] at h
    rcases q with ⟨a, b⟩
    cases b with
    | list xs => exact ⟨xs, rfl, by simpa [listAllb] using h⟩
    | null => exact absurd h (by simp [listAllb])
    | bool c => exact absurd h (by simp [listAllb])
    | int n => exact absurd h (by simp [listAllb])
    | str s => exact absurd h (by simp [listAllb])
    | dict dd => exact absurd h (by simp [listAllb])

theorem splitScheme_snd_subset (l : List Char) : (splitScheme l).2 ⊆ l := by
  unfold splitScheme
  cases hf : l.findIdx? (· == ':') with
  | none => exact fun a ha => ha
  | some i =>
    dsimp only
    split
    · exact List.drop_subset _ _
    · exact fun a ha => ha

theorem splitNetloc_ok (l : List Char) (h1 : '[' ∉ l) (h2 : ']' ∉ l) :
    ∃ r, splitNetloc l = .ok r ∧ r.1 ⊆ l := by
  unfold splitNetloc
  split
  · have hsub : (l.drop 2).takeWhile (fun c => !netDelim c) ⊆ l := by
      intro a ha
      exact List.mem_of_mem_drop ((List.takeWhile_prefix _).subset ha)
    have hb1 : ((l.drop 2).takeWhile (fun c => !netDelim c)).contains '[' = false := by
      simp only [List.contains, List.elem_eq_mem, decide_eq_false_iff_not]
      exact fun hm => h1 (hsub hm)
    have hb2 : ((l.drop 2).takeWhile (fun c => !netDelim c)).contains ']' = false := by
      simp only [List.contains, List.elem_eq_mem, decide_eq_false_iff_not]
      exact fun hm => h2 (hsub hm)
    rw [if_neg (by rw [hb1, hb2]; simp)]
    exact ⟨_, rfl, hsub⟩
  · exact ⟨_, rfl, List.nil_subset l⟩

theorem checkNetloc_ascii_ok {netl : List Char}
    (h : netl.all (fun c => c.toNat < 128) = true) : checkNetloc netl = .ok () := by
  unfold checkNetloc
  rw [if_pos (by rw [h]; simp)]

theorem pyUrlparse_ok {s : String} (h : noBrackets s = true) (ha : isAsciiStr s = true) :
    ∃ p, pyUrlparse s = .ok p := by
  unfold noBrackets at h
  simp only [Bool.and_eq_true, Bool.not_eq_true', List.contains, List.elem_eq_mem,
    decide_eq_false_iff_not] at h
  obtain ⟨hb1, hb2⟩ := h
  unfold isAsciiStr at ha
  simp only [List.all_eq_true, decide_eq_true_eq] at ha
  unfold pyUrlparse
  rcases hss : splitScheme s.toList with ⟨sch, l1⟩
  have hl1 : l1 ⊆ s.toList := by
    have hsb := splitScheme_snd_subset s.toList
    rw [hss] at hsb
    exact hsb
  obtain ⟨r, hr, hrsub⟩ := splitNetloc_ok l1 (fun hm => hb1 (hl1 hm))
    (fun hm => hb2 (hl1 hm))
  have hra : r.1.all (fun c => c.toNat < 128) = true := by
    simp only [List.all_eq_true, decide_eq_true_eq]
    exact fun c hc => ha c (hl1 (hrsub hc))
  dsimp only
  rw [hr]
  show ∃ p, (checkNetloc r.1).map (fun _ => urlparseTail sch r) = .ok p
  rw [checkNetloc_ascii_ok hra]
  exact ⟨_, rfl⟩

theorem generalVals_WT_ok {g : List (String × JVal)} (hg : GeneralWT g = true) :
    ∃ v, generalVals (.dict g) = .ok v := by
  unfold GeneralWT at hg
  simp only [Bool.and_eq_true] at hg
  obtain ⟨⟨⟨⟨hurl, hsub⟩, hhassub⟩, hcs⟩, htech⟩ := hg
  obtain ⟨s, hs, hnb, hascii⟩ := field_url hurl
  obtain ⟨p, hp⟩ := pyUrlparse_ok hnb hascii
  obtain ⟨t, ht⟩ := field_sub p.netloc hsub
  obtain ⟨hsv, hhsv⟩ := field_intLike (show intLike (JVal.bool false) = true from rfl) hhassub
  obtain ⟨csv, hcsv⟩ := field_intLike (show intLike (JVal.int 0) = true from rfl) hcs
  obtain ⟨txs, htx, _⟩ := field_listAll htech
  refine exOk_iff.mp ?_
  unfold generalVals
  rw [bind_asDict]
  dsimp only
  rw [exOk_bind]
  refine ⟨s, by rw [hs]; rfl, ?_⟩
  dsimp only
  rw [exOk_bind]
  refine ⟨p, hp, ?_⟩
  dsimp only
  rw [exOk_bind]
  refine ⟨hsv, hhsv, ?_⟩
  dsimp only
  rw [exOk_bind]
  refine ⟨t, by rw [ht]; rfl, ?_⟩
  dsimp only
  rw [exOk_bind]
  refine ⟨csv, hcsv, ?_⟩
  dsimp only
  rw [exOk_bind]
  refine ⟨(txs.length : Int), by rw [htx]; rfl, ?_⟩
  rfl

theorem titleLenE_ok {kvs : List (String × JVal)}
    (h : fieldIs kvs "title" strOrNull = true) : ∃ n, titleLenE kvs = .ok n := by
  unfold titleLenE jGet
  unfold fieldIs at h
  cases hf : kvs.find? (fun q => q.1 == "title") with
  | none => exact ⟨0, rfl⟩
  | some q =>
    rw [hf] at h
    try dsimp only at h
    try dsimp only
    rcases q with ⟨a, b⟩
    cases b with
    | null => exact ⟨0, rfl⟩
    | str s =>
      by_cases ht : truthy (.str s) = true
      · rw [if_pos ht]
        exact ⟨(s.length : Int), rfl⟩
      · rw [if_neg ht]
        exact ⟨0, rfl⟩
    | bool c => simp [strOrNull] at h
    | int n => simp [strOrNull] at h
    | list xs => simp [strOrNull] at h
    | dict dd => simp [strOrNull] at h

theorem headerStep_ok {h : JVal} (hh : headerOK h = true)
    (acc : List String × List String) : ∃ acc2, headerStep acc h = .ok acc2 := by
  cases h with
  | dict hd =>
    simp only [headerOK, Bool.and_eq_true] at hh
    obtain ⟨hk, hv⟩ := hh
    obtain ⟨ks, hks⟩ := field_str hk
    obtain ⟨vs, hvs⟩ := field_str hv
    refine exOk_iff.mp ?_
    unfold headerStep
    rw [bind_asDict]
    dsimp only
    rw [exOk_bind]
    refine ⟨ks, by rw [hks]; rfl, ?_⟩
    dsimp only
    rw [exOk_bind]
    refine ⟨vs, by rw [hvs]; rfl, ?_⟩
    rfl
  | null => simp [headerOK] at hh
  | bool b => simp [headerOK] at hh
  | int n => simp [headerOK] at hh
  | str s => simp [headerOK] at hh
  | list xs => simp [headerOK] at hh

theorem headerFold_ok {hs : List JVal} (hall : hs.all headerOK = true)
    (acc : List String × List String) :
    ∃ r, hs.foldlM headerStep acc = .ok r := by
  induction hs generalizing acc with
  | nil => exact ⟨acc, rfl⟩
  | cons hd tl ih =>
    rw [List.all_cons, Bool.and_eq_true] at hall
    obtain ⟨h1, h2⟩ := hall
    obtain ⟨acc2, hacc2⟩ := headerStep_ok h1 acc
    obtain ⟨r, hr⟩ := ih h2 acc2
    refine ⟨r, ?_⟩
    simp only [List.foldlM]
    rw [hacc2]
    exact hr

theorem field_resp {ed : List (String × JVal)}
    (h : fieldIs ed "response" respOKb = true) :
    ∃ rd, jGet ed "response" (.dict []) = .dict rd ∧
      fieldIs rd "headers" (listAllb headerOK) = true := by
  unfold fieldIs at h
  unfold jGet
  cases hf : ed.find? (fun q => q.1 == "response") with
  | none => exact ⟨[], rfl, rfl⟩
  | some q =>
    rw [hf] at h
    try dsimp only at h
    try dsimp only
    rcases q with ⟨a, b⟩
    cases b with
    | dict rd => exact ⟨rd, rfl, by simpa [respOKb] using h⟩
    | null => simp [respOKb] at h
    | bool c => simp [respOKb] at h
    | int n => simp [respOKb] at h
    | str s => simp [respOKb] at h
    | list xs => simp [respOKb] at h

theorem entryStep_ok {e : JVal} (he : entryOK e = true)
    (acc : List String × List String) : ∃ r, entryStep acc e = .ok r := by
  cases e with
  | dict ed =>
    have h2 : fieldIs ed "response" respOKb = true := by simpa [entryOK] using he
    obtain ⟨rd, hrd, hhd⟩ := field_resp h2
    obtain ⟨hs, hhs, hall⟩ := field_listAll hhd
    obtain ⟨sc, hsc⟩ := headerFold_ok hall acc
    refine exOk_iff.mp ?_
    unfold entryStep
    rw [bind_asDict]
    try dsimp only
    rw [exOk_bind]
    refine ⟨rd, by rw [hrd]; rfl, ?_⟩
    try dsimp only
    rw [exOk_bind]
    refine ⟨hs, by rw [hhs]; rfl, ?_⟩
    try dsimp only
    exact exOk_iff.mpr ⟨sc, hsc⟩
  | null => simp [entryOK] at he
  | bool b => simp [entryOK] at he
  | int n => simp [entryOK] at he
  | str s => simp [entryOK] at he
  | list xs => simp [entryOK] at he

theorem entryFold_ok {es : List JVal} (hall : es.all entryOK = true)
    (acc : List String × List String) :
    ∃ r, es.foldlM entryStep acc = .ok r := by
  induction es generalizing acc with
  | nil => exact ⟨acc, rfl⟩
  | cons hd tl ih =>
    rw [List.all_cons, Bool.and_eq_true] at hall
    obtain ⟨h1, h2⟩ := hall
    obtain ⟨acc2, hacc2⟩ := entryStep_ok h1 acc
    obtain ⟨r, hr⟩ := ih h2 acc2
    refine ⟨r, ?_⟩
    simp only [List.foldlM]
    rw [hacc2]
    exact hr

theorem field_hashable {rd : List (String × JVal)}
    (h : fieldIs rd "md5" hashable = true) :
    hashable (jGet rd "md5" .null) = true := by
  unfold fieldIs at h
  unfold jGet
  cases hf : rd.find? (fun q => q.1 == "md5") with
  | none => rfl
  | some q =>
    rw [hf] at h
    dsimp only at h ⊢
    exact h

theorem md5Step_ok {r : JVal} (hres : responseOK r = true) {acc : List JVal}
    (hacc : acc.all hashable = true) :
    ∃ acc2, md5Step acc r = .ok acc2 ∧ acc2.all hashable = true := by
  cases r with
  | dict rd =>
    simp only [responseOK, Bool.and_eq_true] at hres
    obtain ⟨hmd5, hft⟩ := hres
    unfold md5Step
    cases hany : rd.any (fun p => p.1 == "md5") with
    | true =>
      refine ⟨acc ++ [jGet rd "md5" .null], ?_, ?_⟩
      · rw [show pyContains (.str "md5") (.dict rd) =
          .ok (rd.any (fun p => p.1 == "md5")) from rfl, hany]
        rfl
      · rw [List.all_append]
        simp [hacc, field_hashable hmd5]
    | false =>
      refine ⟨acc, ?_, hacc⟩
      rw [show pyContains (.str "md5") (.dict rd) =
        .ok (rd.any (fun p => p.1 == "md5")) from rfl, hany]
      rfl
  | null => simp [responseOK] at hres
  | bool b => simp [responseOK] at hres
  | int n => simp [responseOK] at hres
  | str s => simp [responseOK] at hres
  | list xs => simp [responseOK] at hres

theorem md5Fold_ok {rs : List JVal} (hall : rs.all responseOK = true)
    (acc : List JVal) (hacc : acc.all hashable = true) :
    ∃ m, rs.foldlM md5Step acc = .ok m ∧ m.all hashable = true := by
  induction rs generalizing acc with
  | nil => exact ⟨acc, rfl, hacc⟩
  | cons hd tl ih =>
    rw [List.all_cons, Bool.and_eq_true] at hall
    obtain ⟨h1, h2⟩ := hall
    obtain ⟨acc2, hacc2, hok2⟩ := md5Step_ok h1 hacc
    obtain ⟨m, hm, hmall⟩ := ih h2 acc2 hok2
    refine ⟨m, ?_, hmall⟩
    simp only [List.foldlM]
    rw [hacc2]
    exact hm

theorem ftStep_ok {r : JVal} (hres : responseOK r = true) (acc : Int × Int × Int) :
    ∃ t, ftStep acc r = .ok t := by
  cases r with
  | dict rd =>
    simp only [responseOK, Bool.and_eq_true] at hres
    obtain ⟨hmd5, hft⟩ := hres
    obtain ⟨fs, hfs⟩ := field_str hft
    refine exOk_iff.mp ?_
    unfold ftStep
    rw [bind_asDict]
    dsimp only
    rw [exOk_bind]
    refine ⟨fs, by rw [hfs]; rfl, ?_⟩
    rfl
  | null => simp [responseOK] at hres
  | bool b => simp [responseOK] at hres
  | int n => simp [responseOK] at hres
  | str s => simp [responseOK] at hres
  | list xs => simp [responseOK] at hres

theorem ftFold_ok {rs : List JVal} (hall : rs.all responseOK = true)
    (acc : Int × Int × Int) : ∃ t, rs.foldlM ftStep acc = .ok t := by
  induction rs generalizing acc with
  | nil => exact ⟨acc, rfl⟩
  | cons hd tl ih =>
    rw [List.all_cons, Bool.and_eq_true] at hall
    obtain ⟨h1, h2⟩ := hall
    obtain ⟨acc2, hacc2⟩ := ftStep_ok h1 acc
    obtain ⟨t, ht⟩ := ih h2 acc2
    refine ⟨t, ?_⟩
    simp only [List.foldlM]
    rw [hacc2]
    exact ht

theorem contentVals_WT_ok {c : List (String × JVal)} (hc : ContentWT c = true) :
    ∃ cv, contentVals (.dict c) = .ok cv := by
  unfold ContentWT at hc
  simp only [Bool.and_eq_true] at hc
  obtain ⟨⟨⟨⟨⟨hsc, htitle⟩, hhtml⟩, hdest⟩, hhar⟩, hresp⟩ := hc
  obtain ⟨scv, hscv⟩ := field_intLike (show intLike (JVal.int 0) = true from rfl) hsc
  obtain ⟨tl, htl⟩ := titleLenE_ok htitle
  obtain ⟨hv, hhv⟩ := field_str hhtml
  obtain ⟨dstr, hdstr⟩ := field_str hdest
  obtain ⟨harxs, hharxs, hallhar⟩ := field_listAll hhar
  obtain ⟨rsxs, hrsxs, hallrs⟩ := field_listAll hresp
  obtain ⟨sc, hsc2⟩ := entryFold_ok hallhar ([], [])
  obtain ⟨md5s, hmd5s, hmdall⟩ := md5Fold_ok hallrs [] rfl
  obtain ⟨trip, htrip⟩ := ftFold_ok hallrs (0, 0, 0)
  refine exOk_iff.mp ?_
  unfold contentVals
  rw [bind_asDict]
  dsimp only
  rw [exOk_bind]
  refine ⟨scv, hscv, ?_⟩
  dsimp only
  rw [exOk_bind]
  refine ⟨tl, htl, ?_⟩
  dsimp only
  rw [exOk_bind]
  refine ⟨(hv.length : Int), by rw [hhv]; rfl, ?_⟩
  dsimp only
  rw [exOk_bind]
  refine ⟨hv, by rw [hhv]; rfl, ?_⟩
  dsimp only
  rw [exOk_bind]
  refine ⟨dstr, by rw [hdstr]; rfl, ?_⟩
  dsimp only
  rw [exOk_bind]
  refine ⟨(harxs.length : Int), by rw [hharxs]; rfl, ?_⟩
  dsimp only
  rw [exOk_bind]
  refine ⟨(rsxs.length : Int), by rw [hrsxs]; rfl, ?_⟩
  dsimp only
  rw [exOk_bind]
  refine ⟨harxs, by rw [hharxs]; rfl, ?_⟩
  dsimp only
  rw [exOk_bind]
  refine ⟨sc, hsc2, ?_⟩
  dsimp only
  rw [exOk_bind]
  refine ⟨rsxs, by rw [hrsxs]; rfl, ?_⟩
  dsimp only
  rw [exOk_bind]
  refine ⟨md5s, hmd5s, ?_⟩
  dsimp only
  rw [exOk_bind]
  refine ⟨0, by unfold hashableCheck; rw [hmdall]; rfl, ?_⟩
  dsimp only
  rw [exOk_bind]
  refine ⟨trip, htrip, ?_⟩
  rfl

/-- C1 counterexample: the claim says both extractors return normally on
every dict whose fields have malformed types; but on `{"url": 5}` the
source's `urlparse(url)` (line 38) raises, so `extract_general_features`
raises.  (The orchestrator's `safe_call` exists precisely to catch such
extractor exceptions.) -/
theorem claim_C1_cex :
    extract_general_features (.dict [("url", .int 5)]) =
      .error "TypeError: urlparse expects a str" := rfl

/-- C1 amended: the extractors return normally on every record whose
*present* fields are well-typed for the lines that read them (so in
particular on `{}` and on records with any subset of well-typed fields);
a malformed truthy field type — e.g. an integer `url`, a non-numeric
`content_status`, a null `html`, a non-list `har` — makes the extractor
raise, and the aggregator's `safe_call` is what contains those
exceptions. -/
theorem claim_C1_amended (g c : List (String × JVal))
    (hg : GeneralWT g = true) (hc : ContentWT c = true) :
    exOk (extract_general_features (.dict g)) = true ∧
    exOk (extract_contentinfo_features (.dict c)) = true := by
  constructor
  · obtain ⟨v, hv⟩ := generalVals_WT_ok hg
    unfold extract_general_features
    rw [hv]
    rfl
  · obtain ⟨cv, hcv⟩ := contentVals_WT_ok hc
    unfold extract_contentinfo_features
    rw [hcv]
    rfl

theorem claim_C1_witness :
    GeneralWT c1GIn = true ∧ ContentWT c1CIn = true ∧
    exOk (extract_general_features (.dict c1GIn)) = true ∧
    exOk (extract_contentinfo_features (.dict c1CIn)) = true := by
  have h := claim_C1_amended c1GIn c1CIn (by decide) (by decide)
  exact ⟨by decide, by decide, h.1, h.2⟩

end Phish
